import Mathlib

/-!
# Product management: creation, cache-aside read path and compression worker

A shallow embedding of the Go services under `src/`:

* `common/types/types.go`                       : `User`, `Product`, `Image`, `CompressedImage`
* `products/internal/utils/response/response.go`: `WriteJson`, `WriteError`, `WriteValidationErrors`
* `products/internal/products/products.go`      : `ProductPayload`, `NewProduct`, `GetProduct`
* `compression/internal/compress/compress.go`   : `getFileNameFromURL`, `compressJPEG`, `CompressImages`
* `compression/internal/products/products.go`   : `GetProductImages`, `StoreCompressedImages`
* `compression/cmd/main.go`                     : the body of the consume loop (`processMessage`)

The relational store, the cache, the queue and the outside world (HTTP fetches, the image
codec, the blob store) are explicit state and explicit outcome records: every call that can
fail in the Go code takes the outcome chosen by the environment as an argument.
-/

set_option autoImplicit false

namespace ProductManagement

/-! ## Decimal text of integers (`strconv.FormatInt(_, 10)`, `strconv.ParseInt(_, 10, 64)`) -/

/-- The decimal digit character of a value below ten. -/
def digitChar : Nat → Char
  | 0 => '0' | 1 => '1' | 2 => '2' | 3 => '3' | 4 => '4'
  | 5 => '5' | 6 => '6' | 7 => '7' | 8 => '8' | _ => '9'

/-- The value of a decimal digit character, `none` for any other character. -/
def digitVal (c : Char) : Option Nat :=
  if c = '0' then some 0 else if c = '1' then some 1 else if c = '2' then some 2
  else if c = '3' then some 3 else if c = '4' then some 4 else if c = '5' then some 5
  else if c = '6' then some 6 else if c = '7' then some 7 else if c = '8' then some 8
  else if c = '9' then some 9 else none

/-- Digits of `n`, most significant first, pushed in front of `acc`; `fuel` bounds the loop. -/
def formatNatAux : Nat → Nat → List Char → List Char
  | 0, _, acc => acc
  | fuel + 1, n, acc =>
    if n < 10 then digitChar n :: acc
    else formatNatAux fuel (n / 10) (digitChar (n % 10) :: acc)

/-- Decimal digits of a natural number, without leading zeros (`0` is `"0"`). -/
def formatNat (n : Nat) : List Char := formatNatAux (n + 1) n []

/-- Go `strconv.FormatInt(i, 10)`: a minus sign for negatives, then the digits. -/
def FormatInt (i : Int) : String :=
  if i < 0 then String.mk ('-' :: formatNat i.natAbs) else String.mk (formatNat i.natAbs)

/-- Left-to-right accumulation of decimal digits; `none` on a non-digit. -/
def parseDigits : List Char → Nat → Option Nat
  | [], acc => some acc
  | c :: cs, acc =>
    match digitVal c with
    | some d => parseDigits cs (acc * 10 + d)
    | none => none

/-- Go `strconv.ParseUint(s, 10, 64)`: a non-empty run of digits whose value fits 64 bits. -/
def ParseUint (s : List Char) : Option Nat :=
  match s with
  | [] => none
  | _ :: _ =>
    match parseDigits s 0 with
    | some un => if un < 2 ^ 64 then some un else none
    | none => none

/-- Go `strconv.ParseInt(s, 10, 64)` on the characters of `s`: empty input is a syntax error,
one leading `+` or `-` is accepted, the magnitude is read by `ParseUint`, and a magnitude
outside the signed 64-bit range is a range error. -/
def parseIntChars (s : List Char) : Option Int :=
  match s with
  | [] => none
  | c :: rest =>
    let neg := decide (c = '-')
    let digits := if c = '+' ∨ c = '-' then rest else s
    match ParseUint digits with
    | none => none
    | some un =>
      if !neg && decide (2 ^ 63 ≤ un) then none
      else if neg && decide (2 ^ 63 < un) then none
      else some (if neg then -(un : Int) else (un : Int))

/-- Go `strconv.ParseInt(s, 10, 64)`; `none` stands for a returned error. -/
def ParseInt (s : String) : Option Int := parseIntChars s.data

/-- The values of Go's `int64`. -/
def isInt64 (i : Int) : Prop := -(2 ^ 63 : Int) ≤ i ∧ i < (2 ^ 63 : Int)

instance (i : Int) : Decidable (isInt64 i) := by unfold isInt64; infer_instance

/-! ## `common/types/types.go` -/

/-- A JSON number literal: `mant * 10 ^ exp`, negated when `neg` is set. -/
structure Number where
  neg : Bool
  mant : Nat
  exp : Int
  deriving DecidableEq, Repr

/-- Whether `strconv.ParseFloat(_, 32)` accepts the literal: its magnitude rounds to a finite
`float32`, that is, it lies below `2^128 - 2^103`, halfway between the largest `float32` and
`2^128`. A larger magnitude is a range error. -/
def Number.fitsFloat32 (n : Number) : Bool :=
  if 0 ≤ n.exp then decide (n.mant * 10 ^ n.exp.toNat < 2 ^ 128 - 2 ^ 103)
  else decide (n.mant < (2 ^ 128 - 2 ^ 103) * 10 ^ (-n.exp).toNat)

/-- A finite `float32`, written as a decimal literal that denotes it: `mant * 10 ^ exp`,
negated when `neg` is set, of a magnitude that `float32` holds. JSON decoding cannot produce a
NaN or an infinity, and this type has none. The rounding of a literal to the nearest
`float32` is not modelled: a value keeps the literal it was read from, and a literal written
by `json.Marshal` is read back as the value it was written for. -/
structure Float32 where
  neg : Bool
  mant : Nat
  exp : Int
  finite : Number.fitsFloat32 ⟨neg, mant, exp⟩ = true
  deriving DecidableEq, Repr

/-- The zero value of `float32`. -/
def Float32.zero : Float32 := ⟨false, 0, 0, by decide⟩

/-- The number literal `json.Marshal` writes for a `float32`. -/
def Float32.toNumber (f : Float32) : Number := ⟨f.neg, f.mant, f.exp⟩

/-- Go `f == 0` (true for `-0` as well). -/
def Float32.isZero (f : Float32) : Bool := f.mant == 0

/-- Go `f > 0`. -/
def Float32.gtZero (f : Float32) : Bool := !f.neg && f.mant != 0

/-- Go `types.User`. -/
structure User where
  Id : Int
  Email : String
  deriving DecidableEq, Repr

/-- Go `types.Image`; `ProductId` carries the tag `json:"-"`. -/
structure Image where
  Id : Int
  Url : String
  ProductId : Int
  deriving DecidableEq, Repr

/-- Go `types.CompressedImage`; `ProductId`, `ImageId` and `Image` carry the tag `json:"-"`. -/
structure CompressedImage where
  Id : Int
  Url : String
  ProductId : Int
  ImageId : Int
  Image : Image
  deriving DecidableEq, Repr

/-- Go `types.Product`. A Go slice is `none` when nil and `some xs` otherwise; `User` carries
the tag `json:"-"`. -/
structure Product where
  Id : Int
  Name : String
  Description : String
  Price : Float32
  UserId : Int
  User : User
  Images : Option (List Image)
  CompressedImages : Option (List CompressedImage)
  deriving DecidableEq, Repr

/-- The zero value of `types.User`. -/
def User.zero : User := ⟨0, ""⟩

/-- The zero value of `types.Image`. -/
def Image.zero : Image := ⟨0, "", 0⟩

/-- The zero value of `types.CompressedImage`. -/
def CompressedImage.zero : CompressedImage := ⟨0, "", 0, 0, Image.zero⟩

/-- The zero value of `types.Product` (`var product types.Product`). -/
def Product.zero : Product := ⟨0, "", "", Float32.zero, 0, User.zero, none, none⟩

/-! ## JSON documents and `encoding/json` on the repository's types

Documents are trees; the text layer of `encoding/json` (escaping, whitespace) is not
modelled. A number is a decimal literal, so an integer is a literal with exponent `0`. -/

/-- A JSON document. -/
inductive Json where
  | null
  | bool (b : Bool)
  | num (n : Number)
  | str (s : String)
  | arr (items : List Json)
  | obj (members : List (String × Json))

/-- The number literal `json.Marshal` writes for an `int64`. -/
def Json.ofInt (i : Int) : Json := Json.num ⟨decide (i < 0), i.natAbs, 0⟩

/-- The document `json.Marshal` writes for a slice: `null` for a nil slice, an array
otherwise. -/
def Json.ofSlice {α : Type} (f : α → Json) : Option (List α) → Json
  | none => Json.null
  | some xs => Json.arr (xs.map f)

/-- Result of `json.Marshal` on a `types.Image`: the fields with a JSON name, in declaration order. -/
def Image.Marshal (i : Image) : Json :=
  Json.obj [("id", Json.ofInt i.Id), ("url", Json.str i.Url)]

/-- Result of `json.Marshal` on a `types.CompressedImage`. -/
def CompressedImage.Marshal (c : CompressedImage) : Json :=
  Json.obj [("id", Json.ofInt c.Id), ("url", Json.str c.Url)]

/-- Result of `json.Marshal` on a `types.Product`. -/
def Product.Marshal (p : Product) : Json :=
  Json.obj [
    ("product_id", Json.ofInt p.Id),
    ("product_name", Json.str p.Name),
    ("product_description", Json.str p.Description),
    ("product_price", Json.num p.Price.toNumber),
    ("user_id", Json.ofInt p.UserId),
    ("images", Json.ofSlice Image.Marshal p.Images),
    ("compressed_images", Json.ofSlice CompressedImage.Marshal p.CompressedImages)]

/-- Decoding a JSON value into an `int64` field: `null` leaves the field as it is, an integer
literal in range is stored, anything else is an error (`none`). -/
def decodeInt64 (old : Int) : Json → Option Int
  | Json.null => some old
  | Json.num n =>
    if n.exp = 0 then
      let v : Int := if n.neg then -(n.mant : Int) else (n.mant : Int)
      if -(2 ^ 63 : Int) ≤ v ∧ v < (2 ^ 63 : Int) then some v else none
    else none
  | _ => none

/-- Decoding a JSON value into a `string` field. -/
def decodeString (old : String) : Json → Option String
  | Json.null => some old
  | Json.str s => some s
  | _ => none

/-- Decoding a JSON value into a `float32` field: `null` leaves the field as it is, a literal
that `strconv.ParseFloat(_, 32)` accepts is stored, a literal out of range and any other
value is an error. -/
def decodeFloat32 (old : Float32) : Json → Option Float32
  | Json.null => some old
  | Json.num n => if h : n.fitsFloat32 = true then some ⟨n.neg, n.mant, n.exp, h⟩ else none
  | _ => none

/-- The fold of a character under which `encoding/json` compares the name of an object member
with the JSON name of a field: a capital ASCII letter goes to its small letter, and so do the
two other characters that fold to an ASCII letter, the long s (U+017F) and the Kelvin sign
(U+212A). -/
def foldChar (c : Char) : Char :=
  if 'A' ≤ c ∧ c ≤ 'Z' then Char.ofNat (c.toNat + 32)
  else if c = Char.ofNat 0x17F then 's'
  else if c = Char.ofNat 0x212A then 'k'
  else c

/-- Whether `encoding/json` takes the object member `key` for the field with the JSON name
`name`: the two are equal up to the case of their letters. -/
def equalFold (key name : String) : Bool :=
  key.data.map foldChar == name.data.map foldChar

/-- One member of a JSON object decoded into a `types.Image`; members with an unknown name
are skipped. `ProductId` has no JSON name and is never written. -/
def Image.decodeMember (acc : Option Image) (kv : String × Json) : Option Image :=
  match acc with
  | none => none
  | some i =>
    if equalFold kv.1 "id" then (decodeInt64 i.Id kv.2).map (fun v => { i with Id := v })
    else if equalFold kv.1 "url" then
      (decodeString i.Url kv.2).map (fun v => { i with Url := v })
    else some i

/-- Decoding a JSON value into a fresh `types.Image` (an element of a slice). -/
def Image.Unmarshal : Json → Option Image
  | Json.null => some Image.zero
  | Json.obj members => members.foldl Image.decodeMember (some Image.zero)
  | _ => none

/-- One member of a JSON object decoded into a `types.CompressedImage`. -/
def CompressedImage.decodeMember (acc : Option CompressedImage) (kv : String × Json) :
    Option CompressedImage :=
  match acc with
  | none => none
  | some c =>
    if equalFold kv.1 "id" then (decodeInt64 c.Id kv.2).map (fun v => { c with Id := v })
    else if equalFold kv.1 "url" then
      (decodeString c.Url kv.2).map (fun v => { c with Url := v })
    else some c

/-- Decoding a JSON value into a fresh `types.CompressedImage`. -/
def CompressedImage.Unmarshal : Json → Option CompressedImage
  | Json.null => some CompressedImage.zero
  | Json.obj members => members.foldl CompressedImage.decodeMember (some CompressedImage.zero)
  | _ => none

/-- Decoding the elements of a JSON array one after the other; the first error ends it. -/
def decodeElems {α : Type} (f : Json → Option α) : List Json → Option (List α)
  | [] => some []
  | item :: rest =>
    match f item with
    | none => none
    | some a =>
      match decodeElems f rest with
      | none => none
      | some as => some (a :: as)

/-- Decoding a JSON value into a slice field: `null` sets the slice to nil, an array replaces
it by the decoded elements. -/
def decodeSlice {α : Type} (f : Json → Option α) (_old : Option (List α)) :
    Json → Option (Option (List α))
  | Json.null => some none
  | Json.arr items => (decodeElems f items).map some
  | _ => none

/-- One member of a JSON object decoded into a `types.Product`. -/
def Product.decodeMember (acc : Option Product) (kv : String × Json) : Option Product :=
  match acc with
  | none => none
  | some p =>
    if equalFold kv.1 "product_id" then
      (decodeInt64 p.Id kv.2).map (fun v => { p with Id := v })
    else if equalFold kv.1 "product_name" then
      (decodeString p.Name kv.2).map (fun v => { p with Name := v })
    else if equalFold kv.1 "product_description" then
      (decodeString p.Description kv.2).map (fun v => { p with Description := v })
    else if equalFold kv.1 "product_price" then
      (decodeFloat32 p.Price kv.2).map (fun v => { p with Price := v })
    else if equalFold kv.1 "user_id" then
      (decodeInt64 p.UserId kv.2).map (fun v => { p with UserId := v })
    else if equalFold kv.1 "images" then
      (decodeSlice Image.Unmarshal p.Images kv.2).map (fun v => { p with Images := v })
    else if equalFold kv.1 "compressed_images" then
      (decodeSlice CompressedImage.Unmarshal p.CompressedImages kv.2).map
        (fun v => { p with CompressedImages := v })
    else some p

/-- Result of `json.Unmarshal(doc, &product)` into `var product types.Product`: the members are
decoded in document order into the zero value; `none` stands for a returned error. A member
is taken for the field whose JSON name equals its name up to the case of the letters, and a
member that no field takes is skipped. -/
def Product.Unmarshal : Json → Option Product
  | Json.null => some Product.zero
  | Json.obj members => members.foldl Product.decodeMember (some Product.zero)
  | _ => none

/-- What a cache entry holds: the bytes of a JSON document, or bytes that are not JSON. -/
inductive CacheValue where
  | doc (j : Json)
  | garbage (bytes : String)

/-- Result of `json.Unmarshal([]byte(val), &product)` on a cached value. -/
def CacheValue.Unmarshal : CacheValue → Option Product
  | CacheValue.doc j => Product.Unmarshal j
  | CacheValue.garbage _ => none

/-! ## `products/internal/utils/response/response.go` -/

/-- The state of a `net/http` response: the status line once it is written, and the JSON
documents encoded to the body so far. -/
structure ResponseWriter where
  status : Option Nat
  body : List Json

/-- The response of a request before the handler runs. -/
def ResponseWriter.new : ResponseWriter := ⟨none, []⟩

/-- Go `w.WriteHeader(status)`: only the first call sets the status. -/
def ResponseWriter.WriteHeader (w : ResponseWriter) (status : Nat) : ResponseWriter :=
  match w.status with
  | some _ => w
  | none => { w with status := some status }

/-- Go `json.NewEncoder(w).Encode(data)`: a body write sends status 200 when no status was
written before it. -/
def ResponseWriter.Encode (w : ResponseWriter) (data : Json) : ResponseWriter :=
  { status := some (w.status.getD 200), body := w.body ++ [data] }

/-- The status the client receives: `net/http` sends 200 when the handler returns without
having written one. -/
def ResponseWriter.StatusCode (w : ResponseWriter) : Nat := w.status.getD 200

/-- Go `response.WriteJson`. -/
def WriteJson (w : ResponseWriter) (status : Nat) (data : Json) : ResponseWriter :=
  (w.WriteHeader status).Encode data

/-- The `message interface{}` argument of `WriteError`: a string, or a `map[string]string`. -/
inductive Message where
  | text (s : String)
  | fields (m : List (String × String))

/-- One entry put at its place in a list of entries sorted by key. -/
def insertByKey (kv : String × String) : List (String × String) → List (String × String)
  | [] => [kv]
  | x :: rest => if kv.1 < x.1 then kv :: x :: rest else x :: insertByKey kv rest

/-- The entries of a Go map in the order `json.Marshal` writes them: sorted by key. -/
def sortByKey (m : List (String × String)) : List (String × String) :=
  m.foldr insertByKey []

/-- Result of `json.Marshal` on a `WriteError` message. -/
def Message.Marshal : Message → Json
  | Message.text s => Json.str s
  | Message.fields m => Json.obj ((sortByKey m).map (fun kv => (kv.1, Json.str kv.2)))

/-- Go `response.WriteError`: the key is `errors` when the message is a map. -/
def WriteError (w : ResponseWriter) (status : Nat) (message : Message) : ResponseWriter :=
  let errKey := match message with
    | Message.fields _ => "errors"
    | Message.text _ => "error"
  WriteJson w status (Json.obj [(errKey, message.Marshal)])

/-- Go `errRes[key] = value` on a `map[string]string` kept as an association list. -/
def mapSet (m : List (String × String)) (key value : String) : List (String × String) :=
  if m.any (fun kv => kv.1 == key) then
    m.map (fun kv => if kv.1 == key then (key, value) else kv)
  else m ++ [(key, value)]

/-- One entry of `validator.ValidationErrors`: the Go field name, the failing tag and its
parameter. -/
structure FieldError where
  Field : String
  ActualTag : String
  Param : String
  deriving DecidableEq, Repr

/-! ## `products/internal/products/products.go`: payload and validation -/

/-- Go `ProductPayload`. -/
structure ProductPayload where
  UserId : Int
  ProductName : String
  ProductDescription : String
  ProductPrice : Float32
  ProductImages : Option (List String)
  deriving DecidableEq, Repr

/-- The `json` tag of a field of `ProductPayload`, as `reflect` finds it by field name; the
empty string when there is no such field. -/
def ProductPayload.jsonTag (fieldName : String) : String :=
  if fieldName = "UserId" then "user_id"
  else if fieldName = "ProductName" then "product_name"
  else if fieldName = "ProductDescription" then "product_description"
  else if fieldName = "ProductPrice" then "product_price"
  else if fieldName = "ProductImages" then "product_images"
  else ""

/-- Result of `validator.New().Struct(payload)` for the `validate` tags of `ProductPayload`:
the fields in declaration order, each with its tags from left to right, the first failing
tag of a field being the one reported. `required` fails on the zero value of the field (a
nil slice for `ProductImages`), `gt=0` on a price that is not above zero. The empty list is
a nil error. -/
def ProductPayload.Validate (p : ProductPayload) : List FieldError :=
  (if p.UserId = 0 then [⟨"UserId", "required", ""⟩] else []) ++
  (if p.ProductName = "" then [⟨"ProductName", "required", ""⟩] else []) ++
  (if p.ProductDescription = "" then [⟨"ProductDescription", "required", ""⟩] else []) ++
  (if p.ProductPrice.isZero then [⟨"ProductPrice", "required", ""⟩]
   else if !p.ProductPrice.gtZero then [⟨"ProductPrice", "gt", "0"⟩] else []) ++
  (if p.ProductImages = none then [⟨"ProductImages", "required", ""⟩] else [])

/-- The loop body of `WriteValidationErrors`: the message for one field error. -/
def validationMessage (errRes : List (String × String)) (err : FieldError) :
    List (String × String) :=
  let fieldJSONName := ProductPayload.jsonTag err.Field
  if err.ActualTag = "required" then mapSet errRes fieldJSONName (fieldJSONName ++ " is required")
  else if err.ActualTag = "gt" then
    mapSet errRes fieldJSONName (fieldJSONName ++ " must be greater than " ++ err.Param)
  else mapSet errRes fieldJSONName (fieldJSONName ++ " is not valid")

/-- The map `WriteValidationErrors` builds from the validation errors. -/
def validationErrors (valErrors : List FieldError) : List (String × String) :=
  valErrors.foldl validationMessage []

/-- Go `response.WriteValidationErrors` with `args` a `ProductPayload`. -/
def WriteValidationErrors (w : ResponseWriter) (valErrors : List FieldError) : ResponseWriter :=
  WriteError w 400 (Message.fields (validationErrors valErrors))

/-! ## The Store (gorm over a relational database) -/

/-- The tables of the Store and their identifier sequences. A product row is a `Product`
whose association fields are left at their zero values. -/
structure DB where
  users : List User
  products : List Product
  images : List Image
  compressedImages : List CompressedImage
  productSeq : Int
  imageSeq : Int
  compressedImageSeq : Int

/-- Go `tx.Create(&product)` with `product.Id` zero: the sequence hands out the next
identifier, the row is appended and the identifier is written back. -/
def DB.CreateProduct (db : DB) (p : Product) : DB × Product :=
  let row := { p with Id := db.productSeq + 1 }
  ({ db with products := db.products ++ [row], productSeq := db.productSeq + 1 }, row)

/-- Go `tx.Create(&productImage)` with a zero `Id`. -/
def DB.CreateImage (db : DB) (i : Image) : DB × Image :=
  let row := { i with Id := db.imageSeq + 1 }
  ({ db with images := db.images ++ [row], imageSeq := db.imageSeq + 1 }, row)

/-- Go `tx.Create(&compressedImage)` with a zero `Id`. -/
def DB.CreateCompressedImage (db : DB) (c : CompressedImage) : DB × CompressedImage :=
  let row := { c with Id := db.compressedImageSeq + 1 }
  ({ db with compressedImages := db.compressedImages ++ [row],
             compressedImageSeq := db.compressedImageSeq + 1 }, row)

/-- Go `db.First(&types.User{}, id)`: the user row with that primary key. -/
def DB.FirstUser (db : DB) (id : Int) : Option User :=
  db.users.find? (fun u => u.Id == id)

/-- The `Images` rows of a product, as `Preload("Images")` loads them. -/
def DB.imagesOf (db : DB) (productId : Int) : List Image :=
  db.images.filter (fun i => i.ProductId == productId)

/-- The `CompressedImages` rows of a product, as `Preload("CompressedImages")` loads them. -/
def DB.compressedImagesOf (db : DB) (productId : Int) : List CompressedImage :=
  db.compressedImages.filter (fun c => c.ProductId == productId)

/-- Go `tx.Preload("Images").Find(&product)` with `product.Id` set: the row with that primary
key is read into `product` and its `Images` are loaded; without such a row `product` is left
as it is. -/
def DB.FindWithImages (db : DB) (product : Product) : Product :=
  match db.products.find? (fun r => r.Id == product.Id) with
  | some row =>
    { product with
      Id := row.Id, Name := row.Name, Description := row.Description, Price := row.Price,
      UserId := row.UserId, Images := some (db.imagesOf row.Id) }
  | none => product

/-- Go `db.Preload("Images").Preload("CompressedImages").First(&product, productId)` into a zero
`product`; `none` is `gorm.ErrRecordNotFound`. -/
def DB.FirstProduct (db : DB) (productId : Int) : Option Product :=
  match db.products.find? (fun r => r.Id == productId) with
  | some row =>
    some { Product.zero with
      Id := row.Id, Name := row.Name, Description := row.Description, Price := row.Price,
      UserId := row.UserId, Images := some (db.imagesOf row.Id),
      CompressedImages := some (db.compressedImagesOf row.Id) }
  | none => none

/-- Go `db.Transaction(fc)` of gorm: an error from `Begin` is returned before `fc` runs; an
error from `fc` or from `Commit` rolls the tables back and is returned. `st` is the state of
the variables the closure captures. A rollback here also takes the identifier sequences back,
which a database does not do; no identifier is read after a rollback. -/
def Transaction {σ : Type} (db : DB) (beginErr commitErr : Bool)
    (fc : DB → σ → DB × σ × Option String) (st : σ) : DB × σ × Option String :=
  if beginErr then (db, st, some "begin failed")
  else
    match fc db st with
    | (tx, st1, none) => if commitErr then (db, st1, some "commit failed") else (tx, st1, none)
    | (_, st1, some err) => (db, st1, some err)

/-! ## The Cache (redis) and the Queue (amqp) -/

/-- A command issued to the cache, with its key. -/
inductive RedisCmd where
  | get (key : String)
  | set (key : String)
  | del (key : String)
  deriving DecidableEq, Repr

/-- The cache: its entries (no expiry) and the commands issued to it so far. -/
structure Redis where
  entries : List (String × CacheValue)
  issued : List RedisCmd

/-- The entry stored under a key. -/
def Redis.lookup (rdb : Redis) (key : String) : Option CacheValue :=
  (rdb.entries.find? (fun kv => kv.1 == key)).map (fun kv => kv.2)

/-- Outcome of `rdb.Get(ctx, key).Result()`. -/
inductive GetResult where
  | nil
  | err (e : String)
  | val (v : CacheValue)

/-- Go `rdb.Get(ctx, key).Result()`; `fail` is a connection error or the one-second timeout. -/
def Redis.Get (rdb : Redis) (fail : Bool) (key : String) : Redis × GetResult :=
  let rdb1 := { rdb with issued := rdb.issued ++ [RedisCmd.get key] }
  if fail then (rdb1, GetResult.err "cache unavailable")
  else
    match rdb.lookup key with
    | some v => (rdb1, GetResult.val v)
    | none => (rdb1, GetResult.nil)

/-- Go `rdb.Set(ctx, key, value, 0).Err()`: on success the entry replaces any entry of the key. -/
def Redis.Set (rdb : Redis) (fail : Bool) (key : String) (value : CacheValue) :
    Redis × Option String :=
  let rdb1 := { rdb with issued := rdb.issued ++ [RedisCmd.set key] }
  if fail then (rdb1, some "cache unavailable")
  else
    ({ rdb1 with entries := rdb.entries.filter (fun kv => !(kv.1 == key)) ++ [(key, value)] },
      none)

/-- Go `rdb.Del(ctx, key).Err()`: on success no entry of the key is left. -/
def Redis.Del (rdb : Redis) (fail : Bool) (key : String) : Redis × Option String :=
  let rdb1 := { rdb with issued := rdb.issued ++ [RedisCmd.del key] }
  if fail then (rdb1, some "cache unavailable")
  else ({ rdb1 with entries := rdb.entries.filter (fun kv => !(kv.1 == key)) }, none)

/-- The queue: the bodies of the messages published to it, oldest first. -/
abbrev Queue := List String

/-- Go `channel.Publish("", queue, false, false, message)`: on success the message is enqueued. -/
def Publish (q : Queue) (fail : Bool) (body : String) : Queue × Option String :=
  if fail then (q, some "publish failed") else (q ++ [body], none)

/-! ## `products/internal/products/products.go`: `NewProduct` -/

/-- The outcomes the environment chooses for one `POST /products` request. -/
structure CreateFaults where
  /-- Whether `db.Transaction` cannot begin. -/
  begin : Bool
  /-- Whether `tx.Create(&product)` fails. -/
  createProduct : Bool
  /-- The position in `product_images` of the image whose `tx.Create` fails, if any. -/
  createImage : Option Nat
  /-- Whether `tx.Preload("Images").Find(&product)` fails. -/
  preload : Bool
  /-- Whether the commit fails. -/
  commit : Bool
  /-- Whether `channel.Publish` fails. -/
  publish : Bool
  deriving DecidableEq, Repr

/-- The loop `for _, image := range payload.ProductImages` inside the transaction of
`NewProduct`; `pos` is the position of the first image of `urls` in the payload. -/
def createImages (f : CreateFaults) (productId : Int) :
    List String → Nat → DB → ResponseWriter → DB × ResponseWriter × Option String
  | [], _, tx, w => (tx, w, none)
  | image :: rest, pos, tx, w =>
    if f.createImage = some pos then
      (tx, WriteError w 500 (Message.text "Failed to create product"), some "create image failed")
    else
      createImages f productId rest (pos + 1)
        (tx.CreateImage { Id := 0, Url := image, ProductId := productId }).1 w

/-- The closure `NewProduct` passes to `db.Transaction`; the captured variables are the
response writer and `product`. -/
def newProductTx (f : CreateFaults) (payload : ProductPayload) (tx : DB)
    (st : ResponseWriter × Product) : DB × (ResponseWriter × Product) × Option String :=
  if f.createProduct then
    (tx, (WriteError st.1 500 (Message.text "Failed to create product"), st.2),
      some "create product failed")
  else
    let created := tx.CreateProduct st.2
    match createImages f created.2.Id (payload.ProductImages.getD []) 0 created.1 st.1 with
    | (tx1, w1, some err) => (tx1, (w1, created.2), some err)
    | (tx1, w1, none) =>
      if f.preload then
        (tx1, (WriteError w1 500 (Message.text "Failed to create product"), created.2),
          some "preload failed")
      else (tx1, (w1, tx1.FindWithImages created.2), none)

/-- What a `POST /products` request leaves behind: the Store, the Queue and the response. -/
structure CreateResult where
  db : DB
  queue : Queue
  w : ResponseWriter

/-- Go `NewProduct(db, channel, conf)` applied to one request. `body` is the result of decoding
the request body into a `ProductPayload` (`none` when decoding fails). -/
def NewProduct (db : DB) (queue : Queue) (f : CreateFaults) (body : Option ProductPayload) :
    CreateResult :=
  let w := ResponseWriter.new
  match body with
  | none => ⟨db, queue, WriteError w 400 (Message.text "Invalid request")⟩
  | some payload =>
    match payload.Validate with
    | _ :: _ => ⟨db, queue, WriteValidationErrors w payload.Validate⟩
    | [] =>
      match db.FirstUser payload.UserId with
      | none => ⟨db, queue, WriteError w 400 (Message.text "Invalid user_id")⟩
      | some _ =>
        let product : Product :=
          { Product.zero with
            Name := payload.ProductName, Description := payload.ProductDescription,
            Price := payload.ProductPrice, UserId := payload.UserId }
        match Transaction db f.begin f.commit (newProductTx f payload) (w, product) with
        | (db1, (w1, _), some _) => ⟨db1, queue, w1⟩
        | (db1, (w1, product1), none) =>
          match Publish queue f.publish (FormatInt product1.Id) with
          | (queue1, some _) =>
            ⟨db1, queue1, WriteError w1 500 (Message.text "Failed to create product")⟩
          | (queue1, none) => ⟨db1, queue1, WriteJson w1 201 product1.Marshal⟩

/-! ## `products/internal/products/products.go`: `GetProduct` -/

/-- The outcomes the environment chooses for one `GET /products/{id}` request. -/
structure ReadFaults where
  /-- Whether `rdb.Get` fails (connection error or timeout). -/
  cacheGet : Bool
  /-- Whether the Store query fails with an error other than not-found. -/
  dbQuery : Bool
  /-- Whether `rdb.Set` fails. -/
  cacheSet : Bool
  deriving DecidableEq, Repr

/-- The part of `GetProduct` after the cache did not answer: load from the Store, write the
cache best-effort, respond. -/
def getProductFromStore (db : DB) (rdb : Redis) (f : ReadFaults) (productIdStr : String)
    (productId : Int) (w : ResponseWriter) : Redis × ResponseWriter :=
  if f.dbQuery then (rdb, WriteError w 500 (Message.text "Error fetching product"))
  else
    match db.FirstProduct productId with
    | none => (rdb, WriteError w 404 (Message.text "Product not found"))
    | some product =>
      let productJson := product.Marshal
      ((rdb.Set f.cacheSet productIdStr (CacheValue.doc productJson)).1,
        WriteJson w 200 product.Marshal)

/-- Go `GetProduct(db, rdb)` applied to one request; `productIdStr` is `r.PathValue("id")`. -/
def GetProduct (db : DB) (rdb : Redis) (f : ReadFaults) (productIdStr : String) :
    Redis × ResponseWriter :=
  let w := ResponseWriter.new
  if productIdStr = "" then (rdb, WriteError w 400 (Message.text "Missing product id"))
  else
    match ParseInt productIdStr with
    | none => (rdb, WriteError w 400 (Message.text "Invalid product id"))
    | some productId =>
      match rdb.Get f.cacheGet productIdStr with
      | (rdb1, GetResult.nil) => getProductFromStore db rdb1 f productIdStr productId w
      | (rdb1, GetResult.err _) => getProductFromStore db rdb1 f productIdStr productId w
      | (rdb1, GetResult.val val) =>
        match val.Unmarshal with
        | none => getProductFromStore db rdb1 f productIdStr productId w
        | some product => (rdb1, WriteJson w 200 product.Marshal)

/-- Go `GetProduct(db, rdb)` applied to one request, with `json.Unmarshal` on the cached value
taken as the parameter `unmarshal` (`none` for a returned error): the handler for whatever
`encoding/json` accepts and rejects. `GetProduct` is this handler with `CacheValue.Unmarshal`. -/
def GetProductWith (unmarshal : CacheValue → Option Product) (db : DB) (rdb : Redis)
    (f : ReadFaults) (productIdStr : String) : Redis × ResponseWriter :=
  let w := ResponseWriter.new
  if productIdStr = "" then (rdb, WriteError w 400 (Message.text "Missing product id"))
  else
    match ParseInt productIdStr with
    | none => (rdb, WriteError w 400 (Message.text "Invalid product id"))
    | some productId =>
      match rdb.Get f.cacheGet productIdStr with
      | (rdb1, GetResult.nil) => getProductFromStore db rdb1 f productIdStr productId w
      | (rdb1, GetResult.err _) => getProductFromStore db rdb1 f productIdStr productId w
      | (rdb1, GetResult.val val) =>
        match unmarshal val with
        | none => getProductFromStore db rdb1 f productIdStr productId w
        | some product => (rdb1, WriteJson w 200 product.Marshal)

/-! ## `compression/internal/compress/compress.go` -/

/-- Go `compress.Compressed`. -/
structure Compressed where
  Url : String
  ImageId : Int
  deriving DecidableEq, Repr

/-- Go `strings.Split(s, "/")` on the characters of `s`: the pieces between the slashes, one
more piece than there are slashes. -/
def splitSlash : List Char → List (List Char)
  | [] => [[]]
  | c :: cs =>
    if c = '/' then [] :: splitSlash cs
    else
      match splitSlash cs with
      | seg :: rest => (c :: seg) :: rest
      | [] => [[c]]

/-- Go `getFileNameFromURL`: `segments[len(segments)-1]`; `none` stands for the panic of an
index out of range. -/
def getFileNameFromURL (url : String) : Option String :=
  let segments := splitSlash url.data
  (segments.get? (segments.length - 1)).map String.mk

/-- Raw bytes (a fetched body, an encoded image). -/
abbrev Bytes := List Nat

/-- The world outside the Worker: what an HTTP fetch, the image codec and the Blob Store
answer. An `Except.error` is the returned Go error. -/
structure Outside where
  /-- Go `http.Get(url)` followed by reading `resp.Body`. -/
  httpGet : String → Except String Bytes
  /-- Go `image.Decode(input)`. -/
  imageDecode : Bytes → Except String Bytes
  /-- Go `jpeg.Encode(buf, img, &jpeg.Options{Quality: quality})`. -/
  jpegEncode : Bytes → Nat → Except String Bytes
  /-- Go `s3Client.PutObject` with bucket, key, body and content type; `some` is an error. -/
  putObject : String → String → Bytes → String → Option String

/-- Go `compressJPEG`. -/
def compressJPEG (out : Outside) (input : Bytes) (quality : Nat) : Except String Bytes :=
  match out.imageDecode input with
  | Except.error err => Except.error ("failed to decode image: " ++ err)
  | Except.ok img =>
    match out.jpegEncode img quality with
    | Except.error err => Except.error ("failed to encode image: " ++ err)
    | Except.ok buf => Except.ok buf

/-- What one `processImage` goroutine does before it returns: send a result, send an error,
or panic. -/
inductive TaskResult where
  | result (c : Compressed)
  | error (e : String)
  | panic
  deriving DecidableEq, Repr

/-- The closure `processImage` of `CompressImages`. -/
def processImage (out : Outside) (bucketName : String) (image : Image) : TaskResult :=
  match out.httpGet image.Url with
  | Except.error err => TaskResult.error err
  | Except.ok body =>
    match compressJPEG out body 75 with
    | Except.error err => TaskResult.error err
    | Except.ok compressedData =>
      match getFileNameFromURL image.Url with
      | none => TaskResult.panic
      | some fileName =>
        let key := "compressed_images/" ++ FormatInt image.Id ++ "_" ++ fileName
        match out.putObject bucketName key compressedData "image/jpeg" with
        | some err => TaskResult.error err
        | none =>
          let s3Url := "https://" ++ bucketName ++ ".s3.amazonaws.com/" ++ key
          TaskResult.result { Url := s3Url, ImageId := image.Id }

/-- The receive loop of `CompressImages` over the sends in the order they arrive: a result is
appended to `uploadedUrls`, the first error is kept in `finalErr`, and the loop returns when
every goroutine is done. A panic in a goroutine ends the process (`none`). -/
def fanIn : List TaskResult → List Compressed × Option String →
    Option (List Compressed × Option String)
  | [], st => some st
  | TaskResult.result res :: rest, (uploadedUrls, finalErr) =>
    fanIn rest (uploadedUrls ++ [res], finalErr)
  | TaskResult.error err :: rest, (uploadedUrls, finalErr) =>
    fanIn rest (uploadedUrls, if finalErr = none then some err else finalErr)
  | TaskResult.panic :: _, _ => none

/-- Go `CompressImages(images, s3Client, bucketName)`. One goroutine runs per image; `order`
lists the positions of the images in the order their goroutines send (a permutation of the
positions `0 .. len(images)-1`). -/
def CompressImages (out : Outside) (images : List Image) (bucketName : String)
    (order : List Nat) : Option (List Compressed × Option String) :=
  fanIn ((order.filterMap (fun k => images.get? k)).map (processImage out bucketName)) ([], none)

/-! ## `compression/internal/products/products.go` -/

/-- Go `GetProductImages(db, id)`: the rows with `product_id = id`. The Store reads the text
parameter `id` as a number, here with the reading of `ParseInt`; text that is not a number
and a failing query both return an error and no images. -/
def GetProductImages (db : DB) (fail : Bool) (id : String) : List Image × Option String :=
  if fail then ([], some "query failed")
  else
    match ParseInt id with
    | none => ([], some "invalid input syntax")
    | some productId => (db.imagesOf productId, none)

/-- The outcomes the environment chooses while the Worker processes one message. -/
structure WorkerFaults where
  /-- Whether the query of `GetProductImages` fails. -/
  imagesQuery : Bool
  /-- The order in which the `processImage` goroutines send. -/
  order : List Nat
  /-- Whether the transaction of `StoreCompressedImages` cannot begin. -/
  begin : Bool
  /-- The position of the compressed image whose `tx.Create` fails, if any. -/
  create : Option Nat
  /-- Whether the commit fails. -/
  commit : Bool
  /-- Whether `rdb.Del` fails. -/
  cacheDel : Bool
  deriving DecidableEq, Repr

/-- The closure `StoreCompressedImages` passes to `db.Transaction`: one insert per compressed
image; `pos` is the position of the first element of the list. -/
def storeCompressedTx (f : WorkerFaults) (productId : Int) :
    List Compressed → Nat → DB → DB × Option String
  | [], _, tx => (tx, none)
  | compressedImage :: rest, pos, tx =>
    if f.create = some pos then (tx, some "create compressed image failed")
    else
      storeCompressedTx f productId rest (pos + 1)
        (tx.CreateCompressedImage
          { CompressedImage.zero with
            Url := compressedImage.Url, ImageId := compressedImage.ImageId,
            ProductId := productId }).1

/-- Go `StoreCompressedImages(db, rdb, id, compressedImages)`. -/
def StoreCompressedImages (db : DB) (rdb : Redis) (f : WorkerFaults) (id : String)
    (compressedImages : List Compressed) : DB × Redis × Option String :=
  match ParseInt id with
  | none => (db, rdb, some "invalid syntax")
  | some productId =>
    match Transaction db f.begin f.commit
        (fun tx (_ : Unit) =>
          let r := storeCompressedTx f productId compressedImages 0 tx
          (r.1, (), r.2)) () with
    | (db1, _, some err) => (db1, rdb, some err)
    | (db1, _, none) =>
      match rdb.Del f.cacheDel id with
      | (rdb1, some err) => (db1, rdb1, some err)
      | (rdb1, none) => (db1, rdb1, none)

/-! ## `compression/cmd/main.go`: one iteration of the consume loop -/

/-- The body of `case message := <-messages` in `main`: the errors of `GetProductImages` and
`CompressImages` are dropped, the error of `StoreCompressedImages` is not looked at. `none`
is a process that died from a panic. -/
def processMessage (out : Outside) (bucketName : String) (db : DB) (rdb : Redis)
    (f : WorkerFaults) (body : String) : Option (DB × Redis) :=
  let id := body
  let images := (GetProductImages db f.imagesQuery id).1
  match CompressImages out images bucketName f.order with
  | none => none
  | some (compressed, _) =>
    let r := StoreCompressedImages db rdb f id compressed
    some (r.1, r.2.1)

/-! ## Vocabulary of the properties and concrete inputs -/

/-- The `product` value `NewProduct` builds from a payload before the transaction. -/
def productOfPayload (payload : ProductPayload) : Product :=
  { Product.zero with
    Name := payload.ProductName, Description := payload.ProductDescription,
    Price := payload.ProductPrice, UserId := payload.UserId }

/-- The call `db.Transaction(...)` of `NewProduct`: the tables afterwards, the captured
variables afterwards, and the returned error. -/
def creation (db : DB) (f : CreateFaults) (payload : ProductPayload) :
    DB × (ResponseWriter × Product) × Option String :=
  Transaction db f.begin f.commit (newProductTx f payload)
    (ResponseWriter.new, productOfPayload payload)

/-- The `Image` rows that inserting `urls` for a product adds when the sequence stands at `seq`. -/
def imageRows (productId : Int) : List String → Int → List Image
  | [], _ => []
  | url :: rest, seq => ⟨seq + 1, url, productId⟩ :: imageRows productId rest (seq + 1)

/-- The product row the creation transaction of `payload` inserts into `db`. -/
def productRow (db : DB) (payload : ProductPayload) : Product :=
  { productOfPayload payload with Id := db.productSeq + 1 }

/-- The tables after the creation transaction of `payload` committed on `db`. -/
def committedDB (db : DB) (payload : ProductPayload) : DB :=
  { db with
    products := db.products ++ [productRow db payload],
    productSeq := db.productSeq + 1,
    images := db.images ++
      imageRows (db.productSeq + 1) (payload.ProductImages.getD []) db.imageSeq,
    imageSeq := db.imageSeq + (payload.ProductImages.getD []).length }

/-- The value of `product` after the creation transaction of `payload` committed on `db`: the
inserted row, reloaded with its images. -/
def createdProduct (db : DB) (payload : ProductPayload) : Product :=
  (committedDB db payload).FindWithImages (productRow db payload)

/-- A Store with one user and nothing else. -/
def exampleDB : DB := ⟨[⟨1, "a@b.c"⟩], [], [], [], 0, 0, 0⟩

/-- A valid payload with two images, owned by user 1. -/
def examplePayload : ProductPayload :=
  ⟨1, "lamp", "a lamp", ⟨false, 5, 0, by decide⟩, some ["http://x/a.png", "http://x/b.png"]⟩

/-- A request during which nothing fails. -/
def noCreateFaults : CreateFaults := ⟨false, false, none, false, false, false⟩

/-- A request during which only the publish fails. -/
def publishFault : CreateFaults := ⟨false, false, none, false, false, true⟩

/-- A request during which only the commit fails. -/
def commitFault : CreateFaults := ⟨false, false, none, false, true, false⟩

/-- The pair a task sends on `resultCh`, if it sends one. -/
def TaskResult.sent : TaskResult → Option Compressed
  | TaskResult.result c => some c
  | _ => none

/-- The error a task sends on `errorCh`, if it sends one. -/
def TaskResult.failure : TaskResult → Option String
  | TaskResult.error e => some e
  | _ => none

/-- The `CompressedImage` rows that storing `compressed` for a product adds when the sequence
stands at `seq`. -/
def compressedRows (productId : Int) : List Compressed → Int → List CompressedImage
  | [], _ => []
  | c :: rest, seq =>
    ⟨seq + 1, c.Url, productId, c.ImageId, Image.zero⟩ :: compressedRows productId rest (seq + 1)

/-- The tables after the transaction of `StoreCompressedImages` committed. -/
def storedDB (db : DB) (productId : Int) (compressed : List Compressed) : DB :=
  { db with
    compressedImages := db.compressedImages ++
      compressedRows productId compressed db.compressedImageSeq,
    compressedImageSeq := db.compressedImageSeq + compressed.length }

/-- A Store holding product 7 with two images, and product 8 with one. -/
def workerDB : DB :=
  ⟨[⟨1, "a@b.c"⟩],
   [⟨7, "lamp", "a lamp", ⟨false, 5, 0, by decide⟩, 1, User.zero, none, none⟩,
    ⟨8, "desk", "a desk", ⟨false, 9, 0, by decide⟩, 1, User.zero, none, none⟩],
   [⟨1, "http://x/a.png", 7⟩, ⟨2, "http://x/missing.png", 7⟩, ⟨3, "http://x/c.png", 8⟩],
   [], 8, 3, 0⟩

/-- An empty cache. -/
def emptyCache : Redis := ⟨[], []⟩

/-- A read during which nothing fails. -/
def noReadFaults : ReadFaults := ⟨false, false, false⟩

/-- The cache after a read of product 7 through the path `007` and the Worker's run for the
message `7`: the entry under `007` is there, and the commands are the read's `GET` and `SET`
and the Worker's `DEL`. -/
def staleCache : Redis :=
  ⟨[("007", CacheValue.doc
      (Product.Marshal
        ⟨7, "lamp", "a lamp", ⟨false, 5, 0, by decide⟩, 1, User.zero,
          some [⟨1, "http://x/a.png", 7⟩, ⟨2, "http://x/missing.png", 7⟩], some []⟩))],
   [RedisCmd.get "007", RedisCmd.set "007", RedisCmd.del "7"]⟩

/-- A Worker run on two images during which nothing of the Store or the cache fails. -/
def noWorkerFaults : WorkerFaults := ⟨false, [1, 0], false, none, false, false⟩

/-- An `Image` as `encoding/json` sees it: the field tagged `json:"-"` is the zero value. -/
def Image.visible (i : Image) : Image := { i with ProductId := 0 }

/-- A `CompressedImage` as `encoding/json` sees it: the fields tagged `json:"-"` are zero values. -/
def CompressedImage.visible (c : CompressedImage) : CompressedImage :=
  { c with ProductId := 0, ImageId := 0, Image := Image.zero }

/-- A `Product` as `encoding/json` sees it, nested images included. -/
def Product.visible (p : Product) : Product :=
  { p with
    User := User.zero,
    Images := p.Images.map (List.map Image.visible),
    CompressedImages := p.CompressedImages.map (List.map CompressedImage.visible) }

/-- Every integer field of a product and of its nested images that has a JSON name holds an
`int64`. -/
def Product.int64Fields (p : Product) : Prop :=
  isInt64 p.Id ∧ isInt64 p.UserId ∧
  (∀ i ∈ p.Images.getD [], isInt64 i.Id) ∧
  (∀ c ∈ p.CompressedImages.getD [], isInt64 c.Id)

instance (p : Product) : Decidable p.int64Fields := by
  unfold Product.int64Fields; infer_instance

/-- Product 7 of `workerDB` as `GetProduct` loads it from the Store. -/
def lampLoaded : Product :=
  ⟨7, "lamp", "a lamp", ⟨false, 5, 0, by decide⟩, 1, User.zero,
    some [⟨1, "http://x/a.png", 7⟩, ⟨2, "http://x/missing.png", 7⟩], some []⟩

/-- A cache holding three entries that `json.Unmarshal` rejects: under `7` a document whose
price `1e39` is out of the range of `float32`, under `8` a document whose member `PRODUCT_ID`
is a string, and under `9` bytes that are not JSON. -/
def foreignCache : Redis :=
  ⟨[("7", CacheValue.doc (Json.obj [("product_id", Json.ofInt 7),
        ("product_price", Json.num ⟨false, 1, 39⟩)])),
    ("8", CacheValue.doc (Json.obj [("PRODUCT_ID", Json.str "abc")])),
    ("9", CacheValue.garbage "not json")], []⟩

/-- The payload `examplePayload` with the price set to `0`. -/
def zeroPricePayload : ProductPayload := { examplePayload with ProductPrice := ⟨false, 0, 0, by decide⟩ }

/-- An outside world in which the fetch of `http://x/missing.png` fails and everything else
succeeds. -/
def exampleOutside : Outside :=
  ⟨fun url => if url = "http://x/missing.png" then Except.error "404" else Except.ok [1],
   fun body => Except.ok body, fun img _ => Except.ok img, fun _ _ _ _ => none⟩

/-- Every `CompressedImage` row references an `Image` row of the same product. -/
def refIntegrity (db : DB) : Prop :=
  ∀ c ∈ db.compressedImages, ∃ i ∈ db.images, i.Id = c.ImageId ∧ i.ProductId = c.ProductId

/-- A second Worker run on two images during which nothing of the Store or the cache fails;
the tasks send in the other order. -/
def noWorkerFaultsAgain : WorkerFaults := ⟨false, [0, 1], false, none, false, false⟩

/-! ## `compression/internal/compress/compress.go`: the object key -/

/-- The object key of `processImage`:
`fmt.Sprintf("compressed_images/%d_%s", image.Id, getFileNameFromURL(image.Url))`; `none`
stands for the panic of `getFileNameFromURL`. -/
def objectKey (image : Image) : Option String :=
  (getFileNameFromURL image.Url).map
    (fun fileName => "compressed_images/" ++ FormatInt image.Id ++ "_" ++ fileName)

/-! ## `GetProduct` call by call, and two calls interleaved -/

/-- How a `GetProduct` call was answered. -/
inductive Served where
  | rejected
  | fromCache
  | storeError
  | notFound
  | fromStore (product : Product)

/-- Where a `GetProduct` call stands between its calls to the cache and to the Store: before
`rdb.Get`, after a lookup that gave no decodable value, after the Store returned the product,
or returned. -/
inductive Reading where
  | start
  | missed (productId : Int)
  | loaded (product : Product)
  | finished (w : ResponseWriter) (served : Served)

/-- One call of `GetProduct` to the outside, from where the request stands: `rdb.Get` (with
the checks of the id before it), then the Store query, then `rdb.Set` and the response. Each
call is one step; `db` is the Store at the moment of the step. -/
def readStep (db : DB) (f : ReadFaults) (productIdStr : String) (rdb : Redis) :
    Reading → Redis × Reading
  | Reading.start =>
    let w := ResponseWriter.new
    if productIdStr = "" then
      (rdb, Reading.finished (WriteError w 400 (Message.text "Missing product id"))
        Served.rejected)
    else
      match ParseInt productIdStr with
      | none =>
        (rdb, Reading.finished (WriteError w 400 (Message.text "Invalid product id"))
          Served.rejected)
      | some productId =>
        match rdb.Get f.cacheGet productIdStr with
        | (rdb1, GetResult.nil) => (rdb1, Reading.missed productId)
        | (rdb1, GetResult.err _) => (rdb1, Reading.missed productId)
        | (rdb1, GetResult.val val) =>
          match val.Unmarshal with
          | none => (rdb1, Reading.missed productId)
          | some product =>
            (rdb1, Reading.finished (WriteJson w 200 product.Marshal) Served.fromCache)
  | Reading.missed productId =>
    let w := ResponseWriter.new
    if f.dbQuery then
      (rdb, Reading.finished (WriteError w 500 (Message.text "Error fetching product"))
        Served.storeError)
    else
      match db.FirstProduct productId with
      | none =>
        (rdb, Reading.finished (WriteError w 404 (Message.text "Product not found"))
          Served.notFound)
      | some product => (rdb, Reading.loaded product)
  | Reading.loaded product =>
    ((rdb.Set f.cacheSet productIdStr (CacheValue.doc product.Marshal)).1,
      Reading.finished (WriteJson ResponseWriter.new 200 product.Marshal)
        (Served.fromStore product))
  | Reading.finished w served => (rdb, Reading.finished w served)

/-- One `GetProduct` call run alone: its three steps on an unchanging Store. -/
def readAlone (db : DB) (f : ReadFaults) (productIdStr : String) (rdb : Redis) :
    Redis × Reading :=
  let r1 := readStep db f productIdStr rdb Reading.start
  let r2 := readStep db f productIdStr r1.1 r1.2
  readStep db f productIdStr r2.1 r2.2

/-- Two `GetProduct` calls `A` and `B` running concurrently on one cache: the schedule says
which call takes its next step (`true` for `A`) and what the Store holds at that moment. -/
def interleave (fA fB : ReadFaults) (sA sB : String) :
    List (Bool × DB) → Redis × Reading × Reading → Redis × Reading × Reading
  | [], st => st
  | (true, db) :: rest, (rdb, a, b) =>
    interleave fA fB sA sB rest ((readStep db fA sA rdb a).1, (readStep db fA sA rdb a).2, b)
  | (false, db) :: rest, (rdb, a, b) =>
    interleave fA fB sA sB rest ((readStep db fB sB rdb b).1, a, (readStep db fB sB rdb b).2)

/-- An image with an empty source URL. -/
def emptyUrlImage : Image := ⟨5, "", 7⟩

/-- The first of two images of different identifiers: identifier 1, file name `2_a.png`. -/
def imageOne : Image := ⟨1, "http://x/2_a.png", 7⟩

/-- The second of the two images: identifier 12, file name `a.png`. -/
def imageTwelve : Image := ⟨12, "http://x/a.png", 7⟩

/-- The Store `workerDB` after the Worker stored one compressed image for product 7. -/
def workerDBLater : DB :=
  { workerDB with
    compressedImages :=
      [⟨1, "https://bucket.s3.amazonaws.com/compressed_images/1_a.png", 7, 1, Image.zero⟩],
    compressedImageSeq := 1 }

/-- Product 7 of `workerDBLater` as `GetProduct` loads it from the Store. -/
def lampLoadedLater : Product :=
  { lampLoaded with
    CompressedImages :=
      some [⟨1, "https://bucket.s3.amazonaws.com/compressed_images/1_a.png", 7, 1, Image.zero⟩] }

/-- A schedule of two reads of product 7: both look up the cache, `A` loads before the Worker
stored, `B` loads and writes after it, and `A` writes last. -/
def raceSchedule : List (Bool × DB) :=
  [(true, workerDB), (false, workerDB), (true, workerDB),
   (false, workerDBLater), (false, workerDBLater), (true, workerDBLater)]

/-! # Properties -/

/-! ## Decimal text: parsing undoes formatting -/

theorem digitVal_digitChar (d : Nat) (h : d < 10) : digitVal (digitChar d) = some d := by
  interval_cases d <;> rfl

theorem digitChar_ne_sign (d : Nat) : digitChar d ≠ '+' ∧ digitChar d ≠ '-' := by
  unfold digitChar
  split <;> exact ⟨by decide, by decide⟩

theorem parseDigits_append (xs ys : List Char) (a : Nat) :
    parseDigits (xs ++ ys) a = (parseDigits xs a).bind (parseDigits ys) := by
  induction xs generalizing a with
  | nil => simp [parseDigits]
  | cons c cs ih =>
    simp only [List.cons_append, parseDigits]
    cases digitVal c with
    | none => simp
    | some d => simpa using ih (a * 10 + d)

theorem formatNatAux_acc (fuel n : Nat) (acc : List Char) :
    formatNatAux fuel n acc = formatNatAux fuel n [] ++ acc := by
  induction fuel generalizing n acc with
  | zero => simp [formatNatAux]
  | succ k ih =>
    simp only [formatNatAux]
    split
    · simp
    · rw [ih (n / 10) (digitChar (n % 10) :: acc), ih (n / 10) [digitChar (n % 10)]]
      simp

theorem parseDigits_formatNatAux (fuel n : Nat) (h : n < fuel) :
    parseDigits (formatNatAux fuel n []) 0 = some n := by
  induction fuel generalizing n with
  | zero => omega
  | succ k ih =>
    simp only [formatNatAux]
    split
    · rename_i hlt
      simp [parseDigits, digitVal_digitChar n hlt]
    · rename_i hge
      rw [formatNatAux_acc, parseDigits_append, ih (n / 10) (by omega)]
      simp only [Option.some_bind, parseDigits, digitVal_digitChar (n % 10) (by omega)]
      congr 1
      omega

theorem formatNatAux_head (fuel n : Nat) (acc : List Char) :
    ∃ d cs, formatNatAux (fuel + 1) n acc = digitChar d :: cs := by
  induction fuel generalizing n acc with
  | zero =>
    simp only [formatNatAux]
    split
    · exact ⟨_, _, rfl⟩
    · exact ⟨_, _, rfl⟩
  | succ k ih =>
    rw [formatNatAux]
    split
    · exact ⟨_, _, rfl⟩
    · exact ih _ _

theorem parseIntChars_formatNat (n : Nat) (h : n < 2 ^ 63) :
    parseIntChars (formatNat n) = some (n : Int) := by
  obtain ⟨d, cs, hd⟩ := formatNatAux_head n n []
  have hp : parseDigits (formatNat n) 0 = some n := parseDigits_formatNatAux (n + 1) n (by omega)
  unfold formatNat at hp ⊢
  rw [hd] at hp ⊢
  have h1 := (digitChar_ne_sign d).1
  have h2 := (digitChar_ne_sign d).2
  have h64 : n < 2 ^ 64 := by omega
  have h64b : n < 18446744073709551616 := by omega
  have h63 : ¬ (9223372036854775808 ≤ n) := by omega
  simp [parseIntChars, ParseUint, h1, h2, hp, h64b, h63]

theorem parseIntChars_neg_formatNat (n : Nat) (h : n ≤ 2 ^ 63) :
    parseIntChars ('-' :: formatNat n) = some (-(n : Int)) := by
  obtain ⟨d, cs, hd⟩ := formatNatAux_head n n []
  have hp : parseDigits (formatNat n) 0 = some n := parseDigits_formatNatAux (n + 1) n (by omega)
  unfold formatNat at hp ⊢
  rw [hd] at hp ⊢
  have h64 : n < 2 ^ 64 := by omega
  have h64b : n < 18446744073709551616 := by omega
  have h63 : ¬ (9223372036854775808 < n) := by omega
  simp [parseIntChars, ParseUint, hp, h64b, h63]

/-- Parsing the decimal text of a 64-bit integer gives the integer back. -/
theorem ParseInt_FormatInt (i : Int) (h : isInt64 i) : ParseInt (FormatInt i) = some i := by
  unfold isInt64 at h
  unfold ParseInt FormatInt
  split
  · rename_i hneg
    simp only
    rw [parseIntChars_neg_formatNat i.natAbs (by omega)]
    congr 1
    omega
  · rename_i hpos
    simp only
    rw [parseIntChars_formatNat i.natAbs (by omega)]
    congr 1
    omega

/-! ## `NewProduct`: the creation transaction -/

theorem createImages_none (f : CreateFaults) (productId : Int) (urls : List String)
    (pos : Nat) (tx : DB) (w : ResponseWriter) (tx1 : DB) (w1 : ResponseWriter)
    (h : createImages f productId urls pos tx w = (tx1, w1, none)) :
    w1 = w ∧ tx1 = { tx with images := tx.images ++ imageRows productId urls tx.imageSeq,
                             imageSeq := tx.imageSeq + urls.length } := by
  induction urls generalizing pos tx with
  | nil =>
    simp only [createImages, Prod.mk.injEq, and_true] at h
    obtain ⟨h1, h2⟩ := h
    subst h1 h2
    simp [imageRows]
  | cons url rest ih =>
    simp only [createImages] at h
    split at h
    · simp at h
    · obtain ⟨hw, htx⟩ := ih _ _ h
      refine ⟨hw, ?_⟩
      rw [htx]
      simp [DB.CreateImage, imageRows]
      omega

theorem createImages_some (f : CreateFaults) (productId : Int) (urls : List String)
    (pos : Nat) (tx : DB) (w : ResponseWriter) (tx1 : DB) (w1 : ResponseWriter) (e : String)
    (h : createImages f productId urls pos tx w = (tx1, w1, some e)) :
    w1 = WriteError w 500 (Message.text "Failed to create product") := by
  induction urls generalizing pos tx with
  | nil => simp [createImages] at h
  | cons url rest ih =>
    simp only [createImages] at h
    split at h
    · simp only [Prod.mk.injEq] at h
      exact h.2.1.symm
    · exact ih _ _ h

theorem newProductTx_none (f : CreateFaults) (payload : ProductPayload) (db : DB)
    (w : ResponseWriter) (tx1 : DB) (w1 : ResponseWriter) (p1 : Product)
    (h : newProductTx f payload db (w, productOfPayload payload) = (tx1, (w1, p1), none)) :
    w1 = w ∧ tx1 = committedDB db payload ∧ p1 = createdProduct db payload := by
  unfold newProductTx at h
  by_cases hcp : f.createProduct = true
  · simp [hcp] at h
  · simp only [hcp, Bool.false_eq_true, if_false] at h
    rcases hci : createImages f (db.CreateProduct (productOfPayload payload)).2.Id
        (payload.ProductImages.getD []) 0 (db.CreateProduct (productOfPayload payload)).1 w
      with ⟨tx2, w2, e2⟩
    rw [hci] at h
    cases e2 with
    | some e => simp at h
    | none =>
      by_cases hpre : f.preload = true
      · simp [hpre] at h
      · simp only [hpre, Bool.false_eq_true, if_false, Prod.mk.injEq, and_true] at h
        obtain ⟨h1, h2, h3⟩ := h
        obtain ⟨hw, htx⟩ := createImages_none _ _ _ _ _ _ _ _ hci
        subst h1 h2
        refine ⟨hw, ?_, ?_⟩
        · rw [htx]; simp [committedDB, DB.CreateProduct, productRow]
        · rw [← h3, htx]; simp [createdProduct, committedDB, DB.CreateProduct, productRow]

theorem newProductTx_some (f : CreateFaults) (payload : ProductPayload) (db : DB)
    (w : ResponseWriter) (p : Product) (tx1 : DB) (w1 : ResponseWriter) (p1 : Product)
    (e : String) (h : newProductTx f payload db (w, p) = (tx1, (w1, p1), some e)) :
    w1 = WriteError w 500 (Message.text "Failed to create product") := by
  unfold newProductTx at h
  by_cases hcp : f.createProduct = true
  · simp only [hcp, if_true, Prod.mk.injEq] at h
    exact h.2.1.1.symm
  · simp only [hcp, Bool.false_eq_true, if_false] at h
    rcases hci : createImages f (db.CreateProduct p).2.Id
        (payload.ProductImages.getD []) 0 (db.CreateProduct p).1 w
      with ⟨tx2, w2, e2⟩
    rw [hci] at h
    cases e2 with
    | some e0 =>
      simp only [Prod.mk.injEq] at h
      rw [← h.2.1.1]
      exact createImages_some _ _ _ _ _ _ _ _ _ hci
    | none =>
      by_cases hpre : f.preload = true
      · simp only [hpre, if_true, Prod.mk.injEq] at h
        rw [← h.2.1.1, (createImages_none _ _ _ _ _ _ _ _ hci).1]
      · simp [hpre] at h

/-- A committed creation leaves the response untouched, the new rows in the tables, and the
reloaded product in `product`. -/
theorem creation_none (db : DB) (f : CreateFaults) (payload : ProductPayload)
    (h : (creation db f payload).2.2 = none) :
    creation db f payload =
      (committedDB db payload, (ResponseWriter.new, createdProduct db payload), none) := by
  unfold creation Transaction at h ⊢
  by_cases hb : f.begin = true
  · simp [hb] at h
  · simp only [hb, Bool.false_eq_true, if_false] at h ⊢
    rcases hfc : newProductTx f payload db (ResponseWriter.new, productOfPayload payload)
      with ⟨tx1, ⟨w1, p1⟩, e1⟩
    rw [hfc] at h
    cases e1 with
    | some e => simp at h
    | none =>
      obtain ⟨hw, htx, hp⟩ := newProductTx_none _ _ _ _ _ _ _ hfc
      by_cases hc : f.commit = true
      · simp [hc] at h
      · simp only [hc, Bool.false_eq_true, if_false]
        rw [hw, hp, htx]

/-- A failed creation rolls the tables back; the response carries a 500 unless the failure
was in `Begin` or in `Commit`, where nothing has been written. -/
theorem creation_some (db : DB) (f : CreateFaults) (payload : ProductPayload) (e : String)
    (h : (creation db f payload).2.2 = some e) :
    (creation db f payload).1 = db ∧
      ((creation db f payload).2.1.1 = ResponseWriter.new ∨
       (creation db f payload).2.1.1 =
          WriteError ResponseWriter.new 500 (Message.text "Failed to create product")) := by
  unfold creation Transaction at h ⊢
  by_cases hb : f.begin = true
  · simp [hb]
  · simp only [hb, Bool.false_eq_true, if_false] at h ⊢
    rcases hfc : newProductTx f payload db (ResponseWriter.new, productOfPayload payload)
      with ⟨tx1, ⟨w1, p1⟩, e1⟩
    rw [hfc] at h
    cases e1 with
    | some e0 =>
      have := newProductTx_some _ _ _ _ _ _ _ _ _ hfc
      simp [this]
    | none =>
      obtain ⟨hw, -, -⟩ := newProductTx_none _ _ _ _ _ _ _ hfc
      by_cases hc : f.commit = true
      · simp [hc, hw]
      · simp [hc] at h

theorem NewProduct_eq (db : DB) (queue : Queue) (f : CreateFaults) (payload : ProductPayload)
    (u : User) (hv : payload.Validate = []) (hu : db.FirstUser payload.UserId = some u) :
    NewProduct db queue f (some payload) =
      match creation db f payload with
      | (db1, (w1, _), some _) => ⟨db1, queue, w1⟩
      | (db1, (w1, product1), none) =>
        match Publish queue f.publish (FormatInt product1.Id) with
        | (queue1, some _) =>
          ⟨db1, queue1, WriteError w1 500 (Message.text "Failed to create product")⟩
        | (queue1, none) => ⟨db1, queue1, WriteJson w1 201 product1.Marshal⟩ := by
  simp only [NewProduct, hv, hu, creation, productOfPayload]

theorem FindWithImages_Id (db : DB) (p : Product) : (db.FindWithImages p).Id = p.Id := by
  unfold DB.FindWithImages
  split
  · rename_i row hrow
    have := List.find?_some hrow
    simpa using this
  · rfl

theorem createImages_no_fault (f : CreateFaults) (productId : Int) (urls : List String)
    (pos : Nat) (tx : DB) (w : ResponseWriter) (h : f.createImage = none) :
    (createImages f productId urls pos tx w).2.2 = none := by
  induction urls generalizing pos tx with
  | nil => simp [createImages]
  | cons url rest ih => simp [createImages, h, ih]

theorem imageRows_mem (productId : Int) (urls : List String) (seq : Int) (url : String)
    (h : url ∈ urls) :
    ∃ img ∈ imageRows productId urls seq, img.Url = url ∧ img.ProductId = productId := by
  induction urls generalizing seq with
  | nil => simp at h
  | cons u rest ih =>
    rcases List.mem_cons.1 h with h1 | h1
    · exact ⟨⟨seq + 1, u, productId⟩, by simp [imageRows], h1.symm, rfl⟩
    · obtain ⟨img, hm, hu, hp⟩ := ih (seq + 1) h1
      exact ⟨img, by simp [imageRows, hm], hu, hp⟩

/-- C1: for a `POST /products` request that passes decoding, validation and the owner lookup,
the message with the decimal identifier of the created product is enqueued exactly when the
creation transaction committed and the publish succeeded; the queue grows by at most that
one message; and the response is 201 with the created product exactly in that case. -/
theorem C1_NewProduct_message_iff_committed_and_published
    (db : DB) (queue : Queue) (f : CreateFaults) (payload : ProductPayload) (u : User)
    (hv : payload.Validate = []) (hu : db.FirstUser payload.UserId = some u) :
    let r := NewProduct db queue f (some payload)
    let committed := (creation db f payload).2.2 = none
    let published := f.publish = false
    let created := createdProduct db payload
    (r.queue = queue ++ [FormatInt (db.productSeq + 1)] ↔ committed ∧ published) ∧
    (r.queue = queue ∨ r.queue = queue ++ [FormatInt (db.productSeq + 1)]) ∧
    ((r.w.StatusCode = 201 ∧ r.w.body = [created.Marshal]) ↔ committed ∧ published) ∧
    created.Id = db.productSeq + 1 ∧
    (committed → r.db = committedDB db payload) := by
  intro r committed published created
  have hid : created.Id = db.productSeq + 1 := FindWithImages_Id _ _
  have hr : r = _ := NewProduct_eq db queue f payload u hv hu
  rcases hc : (creation db f payload).2.2 with _ | e
  · have hcn := creation_none db f payload hc
    rw [hcn] at hr
    simp only at hr
    have hid2 : (createdProduct db payload).Id = db.productSeq + 1 := hid
    rw [hid2] at hr
    by_cases hp : f.publish = true
    · simp only [Publish, hp, if_true] at hr
      simp [committed, published, hc, hr, hp, hid, WriteError, WriteJson,
        ResponseWriter.StatusCode, ResponseWriter.WriteHeader, ResponseWriter.Encode,
        ResponseWriter.new]
    · simp only [Publish, hp, Bool.false_eq_true, if_false] at hr
      simp [committed, published, hc, hr, hp, hid2, WriteJson, created,
        ResponseWriter.StatusCode, ResponseWriter.WriteHeader, ResponseWriter.Encode,
        ResponseWriter.new]
  · obtain ⟨hdb, hw⟩ := creation_some db f payload e hc
    rcases hcr : creation db f payload with ⟨db1, ⟨w1, p1⟩, e1⟩
    rw [hcr] at hc hw hr
    simp only at hc hw
    subst hc
    simp only at hr
    rcases hw with hw | hw
    · simp [committed, published, hcr, hr, hw, hid, ResponseWriter.StatusCode,
        ResponseWriter.new]
    · simp [committed, published, hcr, hr, hw, hid, WriteError, WriteJson,
        ResponseWriter.StatusCode, ResponseWriter.WriteHeader, ResponseWriter.Encode,
        ResponseWriter.new]

/-- Witness of C1: the request of `examplePayload` on `exampleDB` with no failure enqueues the
message `1` and is answered 201. -/
theorem C1_witness :
    (examplePayload.Validate = [] ∧
      exampleDB.FirstUser examplePayload.UserId = some ⟨1, "a@b.c"⟩) ∧
    (NewProduct exampleDB [] noCreateFaults (some examplePayload)).queue = ["1"] ∧
    (NewProduct exampleDB [] noCreateFaults (some examplePayload)).w.StatusCode = 201 :=
  ⟨⟨by decide, by decide⟩,
    ((C1_NewProduct_message_iff_committed_and_published exampleDB [] noCreateFaults
      examplePayload ⟨1, "a@b.c"⟩ (by decide) (by decide)).1).2 ⟨by decide, rfl⟩,
    (((C1_NewProduct_message_iff_committed_and_published exampleDB [] noCreateFaults
      examplePayload ⟨1, "a@b.c"⟩ (by decide) (by decide)).2.2.1).2 ⟨by decide, rfl⟩).1⟩

/-- C2: when the creation transaction committed and the publish fails, the response is 500,
the Store keeps the committed product row and one image row per payload image (nothing is
rolled back), and the request leaves no message on the queue. -/
theorem C2_publish_failure_keeps_rows_and_answers_500
    (db : DB) (queue : Queue) (f : CreateFaults) (payload : ProductPayload) (u : User)
    (hv : payload.Validate = []) (hu : db.FirstUser payload.UserId = some u)
    (hcommit : (creation db f payload).2.2 = none) (hpub : f.publish = true) :
    let r := NewProduct db queue f (some payload)
    r.w.StatusCode = 500 ∧
    r.db = committedDB db payload ∧
    productRow db payload ∈ r.db.products ∧
    (∀ url ∈ payload.ProductImages.getD [],
      ∃ img ∈ r.db.images, img.Url = url ∧ img.ProductId = db.productSeq + 1) ∧
    r.queue = queue ∧
    (FormatInt (db.productSeq + 1) ∉ queue → FormatInt (db.productSeq + 1) ∉ r.queue) := by
  intro r
  have hr : r = _ := NewProduct_eq db queue f payload u hv hu
  rw [creation_none db f payload hcommit] at hr
  simp only [Publish, hpub, if_true] at hr
  have hdb : r.db = committedDB db payload := by rw [hr]
  have hq : r.queue = queue := by rw [hr]
  refine ⟨?_, hdb, ?_, ?_, hq, ?_⟩
  · rw [hr]
    simp [WriteError, WriteJson, ResponseWriter.StatusCode, ResponseWriter.WriteHeader,
      ResponseWriter.Encode, ResponseWriter.new]
  · rw [hdb]
    simp [committedDB]
  · intro url hurl
    obtain ⟨img, hm, h1, h2⟩ :=
      imageRows_mem (db.productSeq + 1) (payload.ProductImages.getD []) db.imageSeq url hurl
    refine ⟨img, ?_, h1, h2⟩
    rw [hdb]
    simp [committedDB, hm]
  · rw [hq]
    exact id

/-- Witness of C2: `examplePayload` on `exampleDB` when only the publish fails. -/
theorem C2_witness :
    (examplePayload.Validate = [] ∧
      exampleDB.FirstUser examplePayload.UserId = some ⟨1, "a@b.c"⟩ ∧
      (creation exampleDB publishFault examplePayload).2.2 = none ∧
      publishFault.publish = true) ∧
    (NewProduct exampleDB [] publishFault (some examplePayload)).w.StatusCode = 500 ∧
    (NewProduct exampleDB [] publishFault (some examplePayload)).queue = [] :=
  ⟨⟨by decide, by decide, by decide, rfl⟩,
    (C2_publish_failure_keeps_rows_and_answers_500 exampleDB [] publishFault examplePayload
      ⟨1, "a@b.c"⟩ (by decide) (by decide) (by decide) rfl).1,
    (C2_publish_failure_keeps_rows_and_answers_500 exampleDB [] publishFault examplePayload
      ⟨1, "a@b.c"⟩ (by decide) (by decide) (by decide) rfl).2.2.2.2.1⟩

/-- C8 (the failing path): when every statement of the creation transaction succeeds and the
commit fails, `NewProduct` returns without writing a response, so the client receives status
200 with an empty body instead of a 500; the tables are rolled back and nothing is published. -/
theorem C8_commit_failure_is_answered_200
    (db : DB) (queue : Queue) (f : CreateFaults) (payload : ProductPayload) (u : User)
    (hv : payload.Validate = []) (hu : db.FirstUser payload.UserId = some u)
    (hb : f.begin = false) (hcp : f.createProduct = false) (hci : f.createImage = none)
    (hpre : f.preload = false) (hc : f.commit = true) :
    let r := NewProduct db queue f (some payload)
    r.w.status = none ∧ r.w.body = [] ∧ r.w.StatusCode = 200 ∧
    r.db = db ∧ r.queue = queue := by
  intro r
  have hr : r = _ := NewProduct_eq db queue f payload u hv hu
  have hfc : (newProductTx f payload db (ResponseWriter.new, productOfPayload payload)).2.2
      = none := by
    have := createImages_no_fault f (db.CreateProduct (productOfPayload payload)).2.Id
      (payload.ProductImages.getD []) 0 (db.CreateProduct (productOfPayload payload)).1
      ResponseWriter.new hci
    rcases hx : createImages f (db.CreateProduct (productOfPayload payload)).2.Id
      (payload.ProductImages.getD []) 0 (db.CreateProduct (productOfPayload payload)).1
      ResponseWriter.new with ⟨tx2, w2, e2⟩
    rw [hx] at this
    simp only at this
    subst this
    simp [newProductTx, hcp, hpre, hx]
  rcases hx : newProductTx f payload db (ResponseWriter.new, productOfPayload payload)
    with ⟨tx1, ⟨w1, p1⟩, e1⟩
  rw [hx] at hfc
  simp only at hfc
  subst hfc
  obtain ⟨hw, -, -⟩ := newProductTx_none _ _ _ _ _ _ _ hx
  have hcr : creation db f payload = (db, (w1, p1), some "commit failed") := by
    simp [creation, Transaction, hb, hc, hx]
  rw [hcr] at hr
  simp only at hr
  rw [hr, hw]
  simp [ResponseWriter.new, ResponseWriter.StatusCode]

/-- Witness of C8: `examplePayload` on `exampleDB` when only the commit fails. -/
theorem C8_witness :
    (examplePayload.Validate = [] ∧
      exampleDB.FirstUser examplePayload.UserId = some ⟨1, "a@b.c"⟩ ∧
      commitFault.commit = true) ∧
    (NewProduct exampleDB [] commitFault (some examplePayload)).w.StatusCode = 200 :=
  ⟨⟨by decide, by decide, rfl⟩,
    (C8_commit_failure_is_answered_200 exampleDB [] commitFault examplePayload ⟨1, "a@b.c"⟩
      (by decide) (by decide) rfl rfl rfl rfl rfl).2.2.1⟩

/-- The sibling paths of the commit failure: when a statement inside the creation transaction
fails, the closure has written a 500 before it returns the error. -/
theorem NewProduct_statement_failure_is_answered_500
    (db : DB) (queue : Queue) (f : CreateFaults) (payload : ProductPayload) (u : User)
    (hv : payload.Validate = []) (hu : db.FirstUser payload.UserId = some u)
    (hb : f.begin = false)
    (hfc : (newProductTx f payload db (ResponseWriter.new, productOfPayload payload)).2.2
      ≠ none) :
    (NewProduct db queue f (some payload)).w.StatusCode = 500 := by
  have hr := NewProduct_eq db queue f payload u hv hu
  rcases hx : newProductTx f payload db (ResponseWriter.new, productOfPayload payload)
    with ⟨tx1, ⟨w1, p1⟩, e1⟩
  rw [hx] at hfc
  cases e1 with
  | none => exact absurd rfl hfc
  | some e =>
    have hw := newProductTx_some _ _ _ _ _ _ _ _ _ hx
    have hcr : creation db f payload = (db, (w1, p1), some e) := by
      simp [creation, Transaction, hb, hx]
    rw [hcr] at hr
    simp only at hr
    rw [hr, hw]
    rfl

/-! ## The cache -/

theorem find?_filter_other {β : Type} (l : List (String × β)) (key k : String) (h : k ≠ key) :
    (l.filter (fun kv => !(kv.1 == key))).find? (fun kv => kv.1 == k) =
      l.find? (fun kv => kv.1 == k) := by
  induction l with
  | nil => rfl
  | cons a rest ih =>
    by_cases hk : a.1 = key
    · have hne : ¬ a.1 = k := fun h2 => h (h2.symm.trans hk)
      have hb : (a.1 == k) = false := by simpa using hne
      have hc : (a.1 == key) = true := by simpa using hk
      simp only [List.filter_cons, hc, Bool.not_true, Bool.false_eq_true, if_false,
        List.find?_cons, hb]
      exact ih
    · have hc : (a.1 == key) = false := by simpa using hk
      by_cases hk2 : a.1 = k
      · have hb : (a.1 == k) = true := by simpa using hk2
        simp only [List.filter_cons, hc, Bool.not_false, if_true, List.find?_cons, hb]
      · have hb : (a.1 == k) = false := by simpa using hk2
        simp only [List.filter_cons, hc, Bool.not_false, if_true, List.find?_cons, hb]
        exact ih

theorem find?_filter_self {β : Type} (l : List (String × β)) (key : String) :
    (l.filter (fun kv => !(kv.1 == key))).find? (fun kv => kv.1 == key) = none := by
  induction l with
  | nil => rfl
  | cons a rest ih =>
    by_cases hk : a.1 = key
    · have hc : (a.1 == key) = true := by simpa using hk
      simp only [List.filter_cons, hc, Bool.not_true, Bool.false_eq_true, if_false]
      exact ih
    · have hc : (a.1 == key) = false := by simpa using hk
      simp only [List.filter_cons, hc, Bool.not_false, if_true, List.find?_cons]
      exact ih

theorem lookup_Set_other (rdb : Redis) (fail : Bool) (key k : String) (v : CacheValue)
    (h : k ≠ key) : (rdb.Set fail key v).1.lookup k = rdb.lookup k := by
  unfold Redis.Set Redis.lookup
  cases fail
  · have hne : ¬ key = k := fun h2 => h h2.symm
    simp [List.find?_append, find?_filter_other _ _ _ h, hne]
  · simp

theorem lookup_Del_self (rdb : Redis) (key : String) :
    (rdb.Del false key).1.lookup key = none := by
  simp [Redis.Del, Redis.lookup, find?_filter_self]

theorem FormatInt_ne_empty (i : Int) : FormatInt i ≠ "" := by
  obtain ⟨d, cs, hd⟩ := formatNatAux_head i.natAbs i.natAbs []
  unfold FormatInt formatNat
  intro h
  have := congrArg String.data h
  split at this <;> simp [hd] at this

/-- What `getProductFromStore` does to the cache: at most one `SET`, on the key it is given. -/
theorem getProductFromStore_cache (db : DB) (rdb : Redis) (f : ReadFaults) (s : String)
    (productId : Int) (w : ResponseWriter) :
    ((getProductFromStore db rdb f s productId w).1.issued = rdb.issued ∨
      (getProductFromStore db rdb f s productId w).1.issued = rdb.issued ++ [RedisCmd.set s]) ∧
    ∀ k, k ≠ s → (getProductFromStore db rdb f s productId w).1.lookup k = rdb.lookup k := by
  unfold getProductFromStore
  by_cases hq : f.dbQuery = true
  · simp [hq]
  · simp only [hq, Bool.false_eq_true, if_false]
    cases db.FirstProduct productId with
    | none => simp
    | some p =>
      refine ⟨Or.inr ?_, fun k hk => lookup_Set_other _ _ _ _ _ hk⟩
      simp only [Redis.Set]
      split <;> rfl

/-- What `GetProduct` does to the cache on a request that parses: one `GET` and at most one
`SET`, both on the path text as received, and no entry of another key changes. -/
theorem GetProduct_cache (db : DB) (rdb : Redis) (f : ReadFaults) (s : String) (productId : Int)
    (hs : s ≠ "") (hp : ParseInt s = some productId) :
    ((GetProduct db rdb f s).1.issued = rdb.issued ++ [RedisCmd.get s] ∨
      (GetProduct db rdb f s).1.issued = rdb.issued ++ [RedisCmd.get s, RedisCmd.set s]) ∧
    ∀ k, k ≠ s → (GetProduct db rdb f s).1.lookup k = rdb.lookup k := by
  have key : ∀ w, ((getProductFromStore db
        { rdb with issued := rdb.issued ++ [RedisCmd.get s] } f s productId w).1.issued
          = rdb.issued ++ [RedisCmd.get s] ∨
      (getProductFromStore db
        { rdb with issued := rdb.issued ++ [RedisCmd.get s] } f s productId w).1.issued
          = rdb.issued ++ [RedisCmd.get s, RedisCmd.set s]) ∧
      ∀ k, k ≠ s → (getProductFromStore db
        { rdb with issued := rdb.issued ++ [RedisCmd.get s] } f s productId w).1.lookup k
          = rdb.lookup k := by
    intro w
    obtain ⟨h1, h2⟩ := getProductFromStore_cache db
      { rdb with issued := rdb.issued ++ [RedisCmd.get s] } f s productId w
    refine ⟨?_, fun k hk => by rw [h2 k hk]; rfl⟩
    rcases h1 with h1 | h1
    · exact Or.inl h1
    · exact Or.inr (by rw [h1]; simp)
  unfold GetProduct
  simp only [hs, if_false, hp, Redis.Get]
  by_cases hg : f.cacheGet = true
  · simp only [hg, if_true]
    exact key _
  · simp only [hg, Bool.false_eq_true, if_false]
    cases hl : rdb.lookup s with
    | none => exact key _
    | some v =>
      simp only
      cases hv : v.Unmarshal with
      | none => exact key _
      | some p => exact ⟨Or.inl rfl, fun k _ => rfl⟩

/-! ## The Worker -/

theorem splitSlash_ne_nil (cs : List Char) : splitSlash cs ≠ [] := by
  induction cs with
  | nil => simp [splitSlash]
  | cons c rest ih =>
    unfold splitSlash
    split
    · simp
    · split <;> simp

/-- The index `len(segments)-1` of `getFileNameFromURL` is always in range. -/
theorem getFileNameFromURL_isSome (url : String) : ∃ name, getFileNameFromURL url = some name := by
  unfold getFileNameFromURL
  have hne := splitSlash_ne_nil url.data
  have hlt : (splitSlash url.data).length - 1 < (splitSlash url.data).length := by
    have : 0 < (splitSlash url.data).length := List.length_pos.2 hne
    omega
  refine ⟨String.mk ((splitSlash url.data).get ⟨_, hlt⟩), ?_⟩
  show Option.map String.mk ((splitSlash url.data).get? ((splitSlash url.data).length - 1)) = _
  rw [List.get?_eq_get hlt]
  rfl

theorem processImage_ne_panic (out : Outside) (bucketName : String) (image : Image) :
    processImage out bucketName image ≠ TaskResult.panic := by
  obtain ⟨name, hn⟩ := getFileNameFromURL_isSome image.Url
  unfold processImage
  rw [hn]
  cases out.httpGet image.Url with
  | error e => simp
  | ok body =>
    simp only
    cases compressJPEG out body 75 with
    | error e => simp
    | ok data =>
      simp only
      cases out.putObject bucketName
        ("compressed_images/" ++ FormatInt image.Id ++ "_" ++ name) data "image/jpeg" <;> simp

theorem fanIn_no_panic (l : List TaskResult) (h : ∀ t ∈ l, t ≠ TaskResult.panic)
    (uploaded : List Compressed) (finalErr : Option String) :
    ∃ e, fanIn l (uploaded, finalErr) = some (uploaded ++ l.filterMap TaskResult.sent, e) := by
  induction l generalizing uploaded finalErr with
  | nil => exact ⟨finalErr, by simp [fanIn]⟩
  | cons t rest ih =>
    have hrest : ∀ t ∈ rest, t ≠ TaskResult.panic := fun t ht => h t (List.mem_cons_of_mem _ ht)
    cases t with
    | result c =>
      obtain ⟨e, he⟩ := ih hrest (uploaded ++ [c]) finalErr
      exact ⟨e, by simp [fanIn, he, TaskResult.sent]⟩
    | error err =>
      obtain ⟨e, he⟩ := ih hrest uploaded (if finalErr = none then some err else finalErr)
      exact ⟨e, by simp [fanIn, he, TaskResult.sent]⟩
    | panic => exact absurd rfl (h _ (List.mem_cons_self _ _))

theorem filterMap_get?_range (l : List Image) :
    (List.range l.length).filterMap (fun k => l.get? k) = l := by
  induction l with
  | nil => rfl
  | cons a rest ih =>
    rw [List.length_cons, List.range_succ_eq_map, List.filterMap_cons]
    simp only [List.get?_cons_zero, List.filterMap_map]
    congr 1

/-- The images in the order their goroutines send are a rearrangement of the images. -/
theorem arrival_perm (images : List Image) (order : List Nat)
    (h : order.Perm (List.range images.length)) :
    (order.filterMap (fun k => images.get? k)).Perm images := by
  have := List.Perm.filterMap (fun k => images.get? k) h
  rwa [filterMap_get?_range] at this

/-- The pairs `CompressImages` returns: one per image whose task sends a result, in some order. -/
theorem CompressImages_perm (out : Outside) (images : List Image) (bucketName : String)
    (order : List Nat) (h : order.Perm (List.range images.length)) :
    ∃ uploaded e, CompressImages out images bucketName order = some (uploaded, e) ∧
      uploaded.Perm (images.filterMap (fun i => (processImage out bucketName i).sent)) := by
  unfold CompressImages
  obtain ⟨e, he⟩ := fanIn_no_panic
    ((order.filterMap (fun k => images.get? k)).map (processImage out bucketName))
    (by
      intro t ht
      obtain ⟨i, -, rfl⟩ := List.mem_map.1 ht
      exact processImage_ne_panic out bucketName i) [] none
  refine ⟨_, e, he, ?_⟩
  simp only [List.nil_append, List.filterMap_map]
  exact List.Perm.filterMap _ (arrival_perm images order h)

theorem storeCompressedTx_none (f : WorkerFaults) (productId : Int) (cs : List Compressed)
    (pos : Nat) (tx tx1 : DB) (h : storeCompressedTx f productId cs pos tx = (tx1, none)) :
    tx1 = storedDB tx productId cs := by
  induction cs generalizing pos tx with
  | nil =>
    simp only [storeCompressedTx, Prod.mk.injEq, and_true] at h
    subst h
    simp [storedDB, compressedRows]
  | cons c rest ih =>
    simp only [storeCompressedTx] at h
    split at h
    · simp at h
    · rw [ih _ _ h]
      simp [storedDB, DB.CreateCompressedImage, compressedRows, CompressedImage.zero]
      omega

theorem storeCompressedTx_no_fault (f : WorkerFaults) (productId : Int) (cs : List Compressed)
    (pos : Nat) (tx : DB) (h : f.create = none) :
    (storeCompressedTx f productId cs pos tx).2 = none := by
  induction cs generalizing pos tx with
  | nil => simp [storeCompressedTx]
  | cons c rest ih => simp [storeCompressedTx, h, ih]

/-- Every way `StoreCompressedImages` can end: nothing stored and the cache untouched (with an
error), or all rows stored and one `DEL` issued on `id`. -/
theorem StoreCompressedImages_cases (db : DB) (rdb : Redis) (f : WorkerFaults) (id : String)
    (cs : List Compressed) :
    (StoreCompressedImages db rdb f id cs = (db, rdb, (StoreCompressedImages db rdb f id cs).2.2)
      ∧ (StoreCompressedImages db rdb f id cs).2.2 ≠ none) ∨
    ∃ productId, ParseInt id = some productId ∧
      StoreCompressedImages db rdb f id cs =
        (storedDB db productId cs, (rdb.Del f.cacheDel id).1, (rdb.Del f.cacheDel id).2) := by
  unfold StoreCompressedImages
  cases hp : ParseInt id with
  | none => left; simp
  | some productId =>
    simp only [Transaction]
    by_cases hb : f.begin = true
    · left; simp [hb]
    · simp only [hb, Bool.false_eq_true, if_false]
      rcases hx : storeCompressedTx f productId cs 0 db with ⟨tx1, e1⟩
      cases e1 with
      | some e => left; simp
      | none =>
        have htx := storeCompressedTx_none _ _ _ _ _ _ hx
        by_cases hc : f.commit = true
        · left; simp [hc]
        · right
          refine ⟨productId, rfl, ?_⟩
          simp only [hc, Bool.false_eq_true, if_false, htx]
          rcases hd : rdb.Del f.cacheDel id with ⟨rdb1, e2⟩
          cases e2 <;> rfl

/-- With a parsable identifier and a transaction in which nothing fails, all rows are stored
and the `DEL` is issued. -/
theorem StoreCompressedImages_ok (db : DB) (rdb : Redis) (f : WorkerFaults) (id : String)
    (cs : List Compressed) (productId : Int) (hp : ParseInt id = some productId)
    (hb : f.begin = false) (hcr : f.create = none) (hc : f.commit = false) :
    StoreCompressedImages db rdb f id cs =
      (storedDB db productId cs, (rdb.Del f.cacheDel id).1, (rdb.Del f.cacheDel id).2) := by
  have hnf := storeCompressedTx_no_fault f productId cs 0 db hcr
  rcases hx : storeCompressedTx f productId cs 0 db with ⟨tx1, e1⟩
  rw [hx] at hnf
  simp only at hnf
  subst hnf
  have htx := storeCompressedTx_none _ _ _ _ _ _ hx
  unfold StoreCompressedImages
  simp only [hp, Transaction, hb, Bool.false_eq_true, if_false, hx, hc, htx]
  rcases hd : rdb.Del f.cacheDel id with ⟨rdb1, e2⟩
  cases e2 <;> rfl

theorem Del_issued (rdb : Redis) (fail : Bool) (key : String) :
    (rdb.Del fail key).1.issued = rdb.issued ++ [RedisCmd.del key] := by
  unfold Redis.Del
  split <;> rfl

theorem Del_none (rdb : Redis) (fail : Bool) (key : String)
    (h : (rdb.Del fail key).2 = none) : fail = false := by
  unfold Redis.Del at h
  cases fail
  · rfl
  · simp at h

/-- The path on which the invalidation works: for a read whose path text is the decimal text
of `P`, the request resolves to `P`, the cache commands of `GetProduct` are one `GET` and at
most one `SET` on that decimal text, no entry under another key changes, and a
`StoreCompressedImages` call for the message of `P` that returns no error has issued a `DEL`
on the same key and leaves no entry under it. -/
theorem canonical_read_key_is_the_invalidated_key
    (P : Int) (hP : isInt64 P) (db : DB) (rdb : Redis) (f : ReadFaults)
    (db2 : DB) (wf : WorkerFaults) (compressed : List Compressed) :
    let key := FormatInt P
    let r := GetProduct db rdb f key
    let s := StoreCompressedImages db2 r.1 wf key compressed
    ParseInt key = some P ∧
    (r.1.issued = rdb.issued ++ [RedisCmd.get key] ∨
      r.1.issued = rdb.issued ++ [RedisCmd.get key, RedisCmd.set key]) ∧
    (∀ k, k ≠ key → r.1.lookup k = rdb.lookup k) ∧
    (s.2.2 = none →
      s.2.1.issued = r.1.issued ++ [RedisCmd.del key] ∧ s.2.1.lookup key = none) := by
  intro key r s
  have hparse : ParseInt key = some P := ParseInt_FormatInt P hP
  obtain ⟨h1, h2⟩ := GetProduct_cache db rdb f key P (FormatInt_ne_empty P) hparse
  refine ⟨hparse, h1, h2, ?_⟩
  intro hs
  rcases StoreCompressedImages_cases db2 r.1 wf key compressed with ⟨-, hne⟩ | ⟨pid, -, heq⟩
  · exact absurd hs hne
  · have hs2 : s = _ := heq
    rw [hs2] at hs ⊢
    simp only at hs ⊢
    have hf := Del_none _ _ _ hs
    rw [hf]
    exact ⟨Del_issued _ _ _, lookup_Del_self _ _⟩

/-- The canonical path at work: product 7 read through the path `7`. -/
theorem canonical_read_key_example :
    (GetProduct workerDB emptyCache noReadFaults (FormatInt 7)).1.issued =
      emptyCache.issued ++ [RedisCmd.get (FormatInt 7), RedisCmd.set (FormatInt 7)] :=
  ((canonical_read_key_is_the_invalidated_key 7 (by decide) workerDB emptyCache
    noReadFaults workerDB noWorkerFaults []).2.1).resolve_left (by decide)

/-- C3 (the failing path): the paths `007` and `+7` resolve to product 7, but `GetProduct`
looks up and writes the cache under the path text as received, which is not the decimal text
`7`. The Worker then processes the message `7` without an error, stores the compressed image
and deletes the key `7`; the entry under `007` is still in the cache, and a later read of
`007` is answered with the snapshot from before the Worker ran, while a read of `7` is
answered from the Store with the compressed image. -/
theorem C3_alias_path_entry_survives_invalidation :
    ParseInt "007" = some 7 ∧ ParseInt "+7" = some 7 ∧
    "007" ≠ FormatInt 7 ∧ "+7" ≠ FormatInt 7 ∧
    (GetProduct workerDB emptyCache noReadFaults "007").1.issued =
      [RedisCmd.get "007", RedisCmd.set "007"] ∧
    (GetProduct workerDB emptyCache noReadFaults "+7").1.issued =
      [RedisCmd.get "+7", RedisCmd.set "+7"] ∧
    (GetProduct workerDB emptyCache noReadFaults "007").2 =
      WriteJson ResponseWriter.new 200 lampLoaded.Marshal ∧
    (StoreCompressedImages workerDB (GetProduct workerDB emptyCache noReadFaults "007").1
      noWorkerFaults (FormatInt 7)
      [⟨"https://bucket.s3.amazonaws.com/compressed_images/1_a.png", 1⟩]).2.2 = none ∧
    processMessage exampleOutside "bucket" workerDB
      (GetProduct workerDB emptyCache noReadFaults "007").1 noWorkerFaults (FormatInt 7) =
      some (workerDBLater, staleCache) ∧
    staleCache.issued = [RedisCmd.get "007", RedisCmd.set "007", RedisCmd.del "7"] ∧
    staleCache.lookup "007" = some (CacheValue.doc lampLoaded.Marshal) ∧
    workerDBLater.FirstProduct 7 = some lampLoadedLater ∧
    lampLoadedLater ≠ lampLoaded ∧
    (GetProduct workerDBLater staleCache noReadFaults "007").2 =
      WriteJson ResponseWriter.new 200 lampLoaded.Marshal ∧
    (GetProduct workerDBLater staleCache noReadFaults "7").2 =
      WriteJson ResponseWriter.new 200 lampLoadedLater.Marshal :=
  ⟨by decide, by decide, by decide, by decide, by decide, by decide, rfl, by decide, rfl,
    rfl, rfl, by decide, by decide, rfl, rfl⟩

/-! ## The cache round trip -/

theorem decodeInt64_ofInt (old i : Int) (h : isInt64 i) :
    decodeInt64 old (Json.ofInt i) = some i := by
  unfold isInt64 at h
  have hv : (if decide (i < 0) = true then -((i.natAbs : Nat) : Int) else ((i.natAbs : Nat) : Int))
      = i := by
    by_cases hneg : i < 0
    · simp only [hneg, decide_True, if_true]; omega
    · simp only [hneg, decide_False, Bool.false_eq_true, if_false]; omega
  simp only [decodeInt64, Json.ofInt, if_true, hv]
  rw [if_pos h]

theorem decodeFloat32_toNumber (old f : Float32) :
    decodeFloat32 old (Json.num f.toNumber) = some f := by
  have h : f.toNumber.fitsFloat32 = true := f.finite
  simp only [decodeFloat32, h, dif_pos]
  rfl

theorem unmarshal_marshal_image (i : Image) (h : isInt64 i.Id) :
    Image.Unmarshal i.Marshal = some i.visible := by
  simp +decide [Image.Unmarshal, Image.Marshal, Image.decodeMember, decodeInt64_ofInt _ _ h,
    decodeString, Image.visible, Image.zero]

theorem unmarshal_marshal_compressedImage (c : CompressedImage) (h : isInt64 c.Id) :
    CompressedImage.Unmarshal c.Marshal = some c.visible := by
  simp +decide [CompressedImage.Unmarshal, CompressedImage.Marshal, CompressedImage.decodeMember,
    decodeInt64_ofInt _ _ h, decodeString, CompressedImage.visible, CompressedImage.zero]

theorem mapM_Unmarshal_images (xs : List Image) (h : ∀ i ∈ xs, isInt64 i.Id) :
    decodeElems Image.Unmarshal (xs.map Image.Marshal) = some (xs.map Image.visible) := by
  induction xs with
  | nil => rfl
  | cons a rest ih =>
    have ha := unmarshal_marshal_image a (h a (List.mem_cons_self _ _))
    have hr := ih (fun i hi => h i (List.mem_cons_of_mem _ hi))
    simp [decodeElems, ha, hr]

theorem mapM_Unmarshal_compressed (xs : List CompressedImage) (h : ∀ c ∈ xs, isInt64 c.Id) :
    decodeElems CompressedImage.Unmarshal (xs.map CompressedImage.Marshal)
      = some (xs.map CompressedImage.visible) := by
  induction xs with
  | nil => rfl
  | cons a rest ih =>
    have ha := unmarshal_marshal_compressedImage a (h a (List.mem_cons_self _ _))
    have hr := ih (fun i hi => h i (List.mem_cons_of_mem _ hi))
    simp [decodeElems, ha, hr]

theorem decodeSlice_images (s : Option (List Image)) (h : ∀ i ∈ s.getD [], isInt64 i.Id) :
    decodeSlice Image.Unmarshal none (Json.ofSlice Image.Marshal s)
      = some (s.map (List.map Image.visible)) := by
  cases s with
  | none => rfl
  | some xs => simp [decodeSlice, Json.ofSlice, mapM_Unmarshal_images xs h]

theorem decodeSlice_compressed (s : Option (List CompressedImage))
    (h : ∀ c ∈ s.getD [], isInt64 c.Id) :
    decodeSlice CompressedImage.Unmarshal none (Json.ofSlice CompressedImage.Marshal s)
      = some (s.map (List.map CompressedImage.visible)) := by
  cases s with
  | none => rfl
  | some xs => simp [decodeSlice, Json.ofSlice, mapM_Unmarshal_compressed xs h]

/-- C4 (as the code has it): unmarshalling the cached JSON of a product gives the product back
with every field that has a JSON name intact, and with the fields tagged `json:"-"`
(`Image.ProductId`, `CompressedImage.ProductId`, `CompressedImage.ImageId`, the nested `Image`
and `User`) at their zero values. -/
theorem C4_cache_round_trip_keeps_json_fields (p : Product) (h : p.int64Fields) :
    CacheValue.Unmarshal (CacheValue.doc p.Marshal) = some p.visible := by
  obtain ⟨h1, h2, h3, h4⟩ := h
  simp +decide [CacheValue.Unmarshal, Product.Unmarshal, Product.Marshal, Product.decodeMember,
    decodeInt64_ofInt _ _ h1, decodeInt64_ofInt _ _ h2, decodeString, decodeFloat32_toNumber,
    Product.zero, decodeSlice_images _ h3, decodeSlice_compressed _ h4, Product.visible]

/-- Witness of C4: product 7 of `workerDB` as `GetProduct` loads it. -/
theorem C4_witness :
    workerDB.FirstProduct 7 = some lampLoaded ∧ lampLoaded.int64Fields ∧
      CacheValue.Unmarshal (CacheValue.doc lampLoaded.Marshal) = some lampLoaded.visible :=
  ⟨by decide, by decide, C4_cache_round_trip_keeps_json_fields lampLoaded (by decide)⟩

/-- C4 fails as stated: product 7 of `workerDB`, loaded with its images, does not come back
identical from the cache round trip; the `ProductId` of its images is 7 before and 0 after. -/
theorem C4_counterexample :
    workerDB.FirstProduct 7 = some lampLoaded ∧
    CacheValue.Unmarshal (CacheValue.doc lampLoaded.Marshal) ≠ some lampLoaded ∧
    (lampLoaded.Images.getD []).map Image.ProductId = [7, 7] ∧
    (CacheValue.Unmarshal (CacheValue.doc lampLoaded.Marshal)).map
      (fun q => (q.Images.getD []).map Image.ProductId) = some [0, 0] :=
  ⟨by decide, by decide, by decide, by decide⟩

/-! ## `GetProduct` on a cache miss -/

theorem ParseInt_empty : ParseInt "" = none := by decide

/-- The handler `GetProduct` is `GetProductWith` for the decoder `CacheValue.Unmarshal`. -/
theorem GetProductWith_Unmarshal (db : DB) (rdb : Redis) (f : ReadFaults) (s : String) :
    GetProductWith CacheValue.Unmarshal db rdb f s = GetProduct db rdb f s := rfl

/-- The entries of `foreignCache` do not unmarshal: a price out of the range of `float32`, a
string for `product_id` under a name in capitals, and bytes that are not JSON are errors. -/
theorem foreign_entries_do_not_unmarshal :
    (foreignCache.lookup "7").bind CacheValue.Unmarshal = none ∧
    (foreignCache.lookup "8").bind CacheValue.Unmarshal = none ∧
    (foreignCache.lookup "9").bind CacheValue.Unmarshal = none ∧
    (foreignCache.lookup "7").isSome = true ∧ (foreignCache.lookup "8").isSome = true ∧
    (foreignCache.lookup "9").isSome = true := by
  decide

/-- C6: for a `GET /products/{id}` request with a numeric id whose cache lookup gives no
decodable value (the `GET` fails, the key is absent, or the value does not unmarshal, whatever
`json.Unmarshal` rejects), the response depends on the Store alone: 404 with the error
`Product not found` when the Store has no such product, 200 with the product and its `Images`
and `CompressedImages` when it has one; and it is the same response whether the cache write
fails or not. -/
theorem C6_miss_is_answered_from_the_store
    (unmarshal : CacheValue → Option Product)
    (db : DB) (rdb : Redis) (f : ReadFaults) (productIdStr : String) (productId : Int)
    (hid : ParseInt productIdStr = some productId)
    (hmiss : f.cacheGet = true ∨ rdb.lookup productIdStr = none ∨
      ∃ v, rdb.lookup productIdStr = some v ∧ unmarshal v = none)
    (hdb : f.dbQuery = false) :
    let w := (GetProductWith unmarshal db rdb f productIdStr).2
    (db.FirstProduct productId = none →
      w.StatusCode = 404 ∧ w.body = [Json.obj [("error", Json.str "Product not found")]]) ∧
    (∀ p, db.FirstProduct productId = some p →
      w.StatusCode = 200 ∧ w.body = [p.Marshal] ∧
      p.Images = some (db.imagesOf productId) ∧
      p.CompressedImages = some (db.compressedImagesOf productId)) ∧
    (GetProductWith unmarshal db rdb { f with cacheSet := true } productIdStr).2 =
      (GetProductWith unmarshal db rdb { f with cacheSet := false } productIdStr).2 := by
  intro w
  have hne : productIdStr ≠ "" := by
    intro h
    rw [h, ParseInt_empty] at hid
    exact absurd hid (by simp)
  have hw : ∀ g : ReadFaults, g.cacheGet = f.cacheGet → g.dbQuery = false →
      (GetProductWith unmarshal db rdb g productIdStr).2 =
        match db.FirstProduct productId with
        | none => WriteError ResponseWriter.new 404 (Message.text "Product not found")
        | some product => WriteJson ResponseWriter.new 200 product.Marshal := by
    intro g hg1 hg2
    have hstore : ∀ r : Redis,
        (getProductFromStore db r g productIdStr productId ResponseWriter.new).2 =
          match db.FirstProduct productId with
          | none => WriteError ResponseWriter.new 404 (Message.text "Product not found")
          | some product => WriteJson ResponseWriter.new 200 product.Marshal := by
      intro r
      simp only [getProductFromStore, hg2, Bool.false_eq_true, if_false]
      cases db.FirstProduct productId <;> rfl
    unfold GetProductWith
    simp only [hne, if_false, hid, Redis.Get, hg1]
    rcases hmiss with hm | hm | ⟨v, hm, hv⟩
    · simp only [hm, if_true]
      exact hstore _
    · by_cases hg : f.cacheGet = true
      · simp only [hg, if_true]
        exact hstore _
      · simp only [hg, Bool.false_eq_true, if_false, hm]
        exact hstore _
    · by_cases hg : f.cacheGet = true
      · simp only [hg, if_true]
        exact hstore _
      · simp only [hg, Bool.false_eq_true, if_false, hm, hv]
        exact hstore _
  refine ⟨?_, ?_, ?_⟩
  · intro hnone
    have := hw f rfl hdb
    rw [hnone] at this
    have hw2 : w = _ := this
    rw [hw2]
    simp [WriteError, WriteJson, ResponseWriter.StatusCode, ResponseWriter.WriteHeader,
      ResponseWriter.Encode, ResponseWriter.new, Message.Marshal]
  · intro p hp
    have := hw f rfl hdb
    rw [hp] at this
    have hw2 : w = _ := this
    rw [hw2]
    refine ⟨by simp [WriteJson, ResponseWriter.StatusCode, ResponseWriter.WriteHeader,
      ResponseWriter.Encode, ResponseWriter.new], by simp [WriteJson, ResponseWriter.WriteHeader,
      ResponseWriter.Encode, ResponseWriter.new], ?_, ?_⟩
    · unfold DB.FirstProduct at hp
      split at hp
      · rename_i row hrow
        have hrid : row.Id = productId := by simpa using List.find?_some hrow
        simp only [Option.some.injEq] at hp
        rw [← hp, hrid]
      · simp at hp
    · unfold DB.FirstProduct at hp
      split at hp
      · rename_i row hrow
        have hrid : row.Id = productId := by simpa using List.find?_some hrow
        simp only [Option.some.injEq] at hp
        rw [← hp, hrid]
      · simp at hp
  · rw [hw { f with cacheSet := true } rfl hdb, hw { f with cacheSet := false } rfl hdb]

/-- Witness of C6: product 7 is in `workerDB` and its cache entry in `foreignCache` has a price
that does not unmarshal, so the read is answered 200 from the Store; product 999999 is in
neither the cache nor `workerDB`, and the read is answered 404. -/
theorem C6_witness :
    (ParseInt "7" = some 7 ∧
      (∃ v, foreignCache.lookup "7" = some v ∧ CacheValue.Unmarshal v = none) ∧
      workerDB.FirstProduct 7 = some lampLoaded ∧
      ParseInt "999999" = some 999999 ∧ emptyCache.lookup "999999" = none ∧
      workerDB.FirstProduct 999999 = none) ∧
    (GetProduct workerDB foreignCache noReadFaults "7").2.StatusCode = 200 ∧
    (GetProduct workerDB foreignCache noReadFaults "7").2.body = [lampLoaded.Marshal] ∧
    (GetProduct workerDB emptyCache noReadFaults "999999").2.StatusCode = 404 ∧
    (GetProduct workerDB emptyCache noReadFaults "999999").2.body =
      [Json.obj [("error", Json.str "Product not found")]] :=
  ⟨⟨by decide, ⟨_, rfl, by decide⟩, by decide, by decide, rfl, by decide⟩,
    ((C6_miss_is_answered_from_the_store CacheValue.Unmarshal workerDB foreignCache
      noReadFaults "7" 7 (by decide) (Or.inr (Or.inr ⟨_, rfl, by decide⟩)) rfl).2.1
      lampLoaded (by decide)).1,
    ((C6_miss_is_answered_from_the_store CacheValue.Unmarshal workerDB foreignCache
      noReadFaults "7" 7 (by decide) (Or.inr (Or.inr ⟨_, rfl, by decide⟩)) rfl).2.1
      lampLoaded (by decide)).2.1,
    ((C6_miss_is_answered_from_the_store CacheValue.Unmarshal workerDB emptyCache
      noReadFaults "999999" 999999 (by decide) (Or.inr (Or.inl rfl)) rfl).1 (by decide)).1,
    ((C6_miss_is_answered_from_the_store CacheValue.Unmarshal workerDB emptyCache
      noReadFaults "999999" 999999 (by decide) (Or.inr (Or.inl rfl)) rfl).1 (by decide)).2⟩

/-- The entries of `foreignCache` at work: the three reads issue the `GET` and then the `SET`
of a miss, and none is answered from the cache. -/
theorem foreign_entries_are_misses :
    (GetProduct workerDB foreignCache noReadFaults "7").1.issued =
      [RedisCmd.get "7", RedisCmd.set "7"] ∧
    (GetProduct workerDB foreignCache noReadFaults "8").1.issued =
      [RedisCmd.get "8", RedisCmd.set "8"] ∧
    (GetProduct workerDB foreignCache noReadFaults "9").2.StatusCode = 404 := by
  decide

/-! ## Validation of the price -/

/-- C7 (as the code has it): a payload that is valid except for a price equal to 0 is answered
400 with the field-error map holding exactly the entry `product_price is required` under
`product_price`: the zero price fails the tag `required`, and `gt=0` is not reached. Nothing
is stored or published. -/
theorem C7_zero_price_is_reported_as_required
    (db : DB) (queue : Queue) (f : CreateFaults) (payload : ProductPayload)
    (hu : payload.UserId ≠ 0) (hn : payload.ProductName ≠ "")
    (hd : payload.ProductDescription ≠ "") (hi : payload.ProductImages ≠ none)
    (hprice : payload.ProductPrice.isZero = true) :
    let r := NewProduct db queue f (some payload)
    r.w.StatusCode = 400 ∧
    r.w.body =
      [Json.obj [("errors", Json.obj [("product_price", Json.str "product_price is required")])]]
    ∧ r.db = db ∧ r.queue = queue := by
  intro r
  have hval : payload.Validate = [⟨"ProductPrice", "required", ""⟩] := by
    simp [ProductPayload.Validate, hu, hn, hd, hi, hprice]
  have hr : r = ⟨db, queue, WriteValidationErrors ResponseWriter.new payload.Validate⟩ := by
    simp only [r, NewProduct, hval]
  rw [hr, hval]
  refine ⟨rfl, ?_, rfl, rfl⟩
  simp [WriteValidationErrors, validationErrors, validationMessage, ProductPayload.jsonTag,
    mapSet, WriteError, WriteJson, ResponseWriter.WriteHeader, ResponseWriter.Encode,
    ResponseWriter.new, Message.Marshal, sortByKey, insertByKey]

/-- Witness of C7: `zeroPricePayload` on `exampleDB`. -/
theorem C7_witness :
    (zeroPricePayload.UserId ≠ 0 ∧ zeroPricePayload.ProductPrice.isZero = true) ∧
    (NewProduct exampleDB [] noCreateFaults (some zeroPricePayload)).w.StatusCode = 400 :=
  ⟨⟨by decide, by decide⟩,
    (C7_zero_price_is_reported_as_required exampleDB [] noCreateFaults zeroPricePayload
      (by decide) (by decide) (by decide) (by decide) (by decide)).1⟩

/-- C7 fails as stated: for `zeroPricePayload` the only field error is on the tag `required`,
and the message under `product_price` is `product_price is required`, not
`product_price must be greater than 0`. -/
theorem C7_counterexample :
    zeroPricePayload.Validate = [⟨"ProductPrice", "required", ""⟩] ∧
    validationErrors zeroPricePayload.Validate =
      [("product_price", "product_price is required")] ∧
    validationErrors zeroPricePayload.Validate ≠
      [("product_price", "product_price must be greater than 0")] ∧
    (NewProduct exampleDB [] noCreateFaults (some zeroPricePayload)).w.body =
      [Json.obj [("errors", Json.obj [("product_price", Json.str "product_price is required")])]] :=
  ⟨by decide, by decide, by decide, rfl⟩

/-- The message `must be greater than 0` is the one a negative price gets. -/
theorem negative_price_is_reported_as_gt (payload : ProductPayload)
    (hu : payload.UserId ≠ 0) (hn : payload.ProductName ≠ "")
    (hd : payload.ProductDescription ≠ "") (hi : payload.ProductImages ≠ none)
    (hnz : payload.ProductPrice.isZero = false) (hneg : payload.ProductPrice.neg = true) :
    validationErrors payload.Validate =
      [("product_price", "product_price must be greater than 0")] := by
  have hval : payload.Validate = [⟨"ProductPrice", "gt", "0"⟩] := by
    simp [ProductPayload.Validate, hu, hn, hd, hi, hnz, Float32.gtZero, hneg]
  rw [hval]
  decide

/-! ## One message through the Worker -/

theorem processImage_sent (out : Outside) (bucketName : String) (image : Image) (c : Compressed)
    (h : (processImage out bucketName image).sent = some c) : c.ImageId = image.Id := by
  unfold processImage at h
  cases h1 : out.httpGet image.Url with
  | error e => simp [h1, TaskResult.sent] at h
  | ok body =>
    simp only [h1] at h
    cases h2 : compressJPEG out body 75 with
    | error e => simp [h2, TaskResult.sent] at h
    | ok data =>
      simp only [h2] at h
      cases h3 : getFileNameFromURL image.Url with
      | none => simp [h3, TaskResult.sent] at h
      | some name =>
        simp only [h3] at h
        cases h4 : out.putObject bucketName
            ("compressed_images/" ++ FormatInt image.Id ++ "_" ++ name) data "image/jpeg" with
        | some e => simp [h4, TaskResult.sent] at h
        | none =>
          simp only [h4, TaskResult.sent, Option.some.injEq] at h
          rw [← h]

theorem sent_failure_length (l : List TaskResult) (h : ∀ t ∈ l, t ≠ TaskResult.panic) :
    (l.filterMap TaskResult.sent).length + (l.filterMap TaskResult.failure).length
      = l.length := by
  induction l with
  | nil => rfl
  | cons t rest ih =>
    have hrest := ih (fun t ht => h t (List.mem_cons_of_mem _ ht))
    cases t with
    | result c => simp [List.filterMap_cons, TaskResult.sent, TaskResult.failure]; omega
    | error e => simp [List.filterMap_cons, TaskResult.sent, TaskResult.failure]; omega
    | panic => exact absurd rfl (h _ (List.mem_cons_self _ _))

/-- Every pair `CompressImages` returns was sent by the task of one of the images, whatever
the order of the sends. -/
theorem CompressImages_mem (out : Outside) (images : List Image) (bucketName : String)
    (order : List Nat) :
    ∃ uploaded e, CompressImages out images bucketName order = some (uploaded, e) ∧
      ∀ c ∈ uploaded, ∃ i ∈ images, (processImage out bucketName i).sent = some c := by
  unfold CompressImages
  obtain ⟨e, he⟩ := fanIn_no_panic
    ((order.filterMap (fun k => images.get? k)).map (processImage out bucketName))
    (by
      intro t ht
      obtain ⟨i, -, rfl⟩ := List.mem_map.1 ht
      exact processImage_ne_panic out bucketName i) [] none
  refine ⟨_, e, he, ?_⟩
  intro c hc
  simp only [List.nil_append, List.filterMap_map, List.mem_filterMap] at hc
  obtain ⟨i, ⟨k, -, hk⟩, hi⟩ := hc
  exact ⟨i, List.get?_mem hk, hi⟩

theorem compressedRows_length (productId : Int) (cs : List Compressed) (seq : Int) :
    (compressedRows productId cs seq).length = cs.length := by
  induction cs generalizing seq with
  | nil => rfl
  | cons c rest ih => simp [compressedRows, ih]

theorem compressedRows_map (productId : Int) (cs : List Compressed) (seq : Int) :
    (compressedRows productId cs seq).map (fun r => (r.Url, r.ImageId))
      = cs.map (fun c => (c.Url, c.ImageId)) := by
  induction cs generalizing seq with
  | nil => rfl
  | cons c rest ih => simp [compressedRows, ih]

theorem compressedRows_mem (productId : Int) (cs : List Compressed) (seq : Int)
    (r : CompressedImage) (h : r ∈ compressedRows productId cs seq) :
    r.ProductId = productId ∧ ∃ c ∈ cs, c.ImageId = r.ImageId ∧ c.Url = r.Url := by
  induction cs generalizing seq with
  | nil => simp [compressedRows] at h
  | cons c rest ih =>
    simp only [compressedRows, List.mem_cons] at h
    rcases h with h | h
    · subst h
      exact ⟨rfl, c, List.mem_cons_self _ _, rfl, rfl⟩
    · obtain ⟨h1, c2, hc2, h2⟩ := ih _ h
      exact ⟨h1, c2, List.mem_cons_of_mem _ hc2, h2⟩

theorem compressedRows_countP (productId : Int) (cs : List Compressed) (seq : Int)
    (q : Int → String → Bool) :
    (compressedRows productId cs seq).countP (fun r => q r.ImageId r.Url)
      = cs.countP (fun c => q c.ImageId c.Url) := by
  induction cs generalizing seq with
  | nil => rfl
  | cons c rest ih => simp [compressedRows, List.countP_cons, ih]

/-- One message for product `P` when neither the query of the images nor the transaction
fails: every returned pair is stored for `P` and the `DEL` is issued on the message body. -/
theorem processMessage_ok (out : Outside) (bucketName : String) (db : DB) (rdb : Redis)
    (f : WorkerFaults) (P : Int) (hP : isInt64 P) (hq : f.imagesQuery = false)
    (hb : f.begin = false) (hcr : f.create = none) (hc : f.commit = false)
    (uploaded : List Compressed) (e : Option String)
    (hu : CompressImages out (db.imagesOf P) bucketName f.order = some (uploaded, e)) :
    processMessage out bucketName db rdb f (FormatInt P) =
      some (storedDB db P uploaded, (rdb.Del f.cacheDel (FormatInt P)).1) := by
  have hparse := ParseInt_FormatInt P hP
  unfold processMessage
  simp only [GetProductImages, hq, Bool.false_eq_true, if_false, hparse, hu]
  rw [StoreCompressedImages_ok db rdb f (FormatInt P) uploaded P hparse hb hcr hc]

/-- C5: when the product of a message has images of which exactly one fails in its task, and
the query of the images and the persistence transaction succeed, the Worker appends exactly
one `CompressedImage` row per succeeding image (one fewer than there are images), all for
that product, and issues a `DEL` on the product's key. -/
theorem C5_one_failure_persists_the_others_and_invalidates
    (out : Outside) (bucketName : String) (db : DB) (rdb : Redis) (f : WorkerFaults)
    (P : Int) (hP : isInt64 P) (hq : f.imagesQuery = false)
    (hb : f.begin = false) (hcr : f.create = none) (hc : f.commit = false)
    (horder : f.order.Perm (List.range (db.imagesOf P).length))
    (hone : ((db.imagesOf P).filterMap
      (fun i => (processImage out bucketName i).failure)).length = 1) :
    ∃ db1 rdb1 rows,
      processMessage out bucketName db rdb f (FormatInt P) = some (db1, rdb1) ∧
      db1.compressedImages = db.compressedImages ++ rows ∧
      rows.length + 1 = (db.imagesOf P).length ∧
      (rows.map (fun r => (r.Url, r.ImageId))).Perm
        (((db.imagesOf P).filterMap (fun i => (processImage out bucketName i).sent)).map
          (fun c => (c.Url, c.ImageId))) ∧
      (∀ r ∈ rows, r.ProductId = P) ∧
      rdb1.issued = rdb.issued ++ [RedisCmd.del (FormatInt P)] := by
  obtain ⟨uploaded, e, hu, hperm⟩ := CompressImages_perm out (db.imagesOf P) bucketName f.order horder
  refine ⟨_, _, compressedRows P uploaded db.compressedImageSeq,
    processMessage_ok out bucketName db rdb f P hP hq hb hcr hc uploaded e hu, rfl, ?_, ?_, ?_,
    Del_issued _ _ _⟩
  · have hlen := sent_failure_length ((db.imagesOf P).map (processImage out bucketName))
      (by
        intro t ht
        obtain ⟨i, -, rfl⟩ := List.mem_map.1 ht
        exact processImage_ne_panic out bucketName i)
    simp only [List.filterMap_map, List.length_map] at hlen
    have hfail : ((db.imagesOf P).filterMap
        (TaskResult.failure ∘ processImage out bucketName)).length = 1 := hone
    have hsent : uploaded.length = ((db.imagesOf P).filterMap
        (TaskResult.sent ∘ processImage out bucketName)).length := hperm.length_eq
    rw [compressedRows_length, hsent]
    omega
  · rw [compressedRows_map]
    exact hperm.map _
  · intro r hr
    exact (compressedRows_mem _ _ _ _ hr).1

/-- Witness of C5: product 7 of `workerDB` has two images, the fetch of the second fails. -/
theorem C5_witness :
    (isInt64 7 ∧ noWorkerFaults.order.Perm (List.range (workerDB.imagesOf 7).length) ∧
      ((workerDB.imagesOf 7).filterMap
        (fun i => (processImage exampleOutside "bucket" i).failure)).length = 1) ∧
    ∃ db1 rdb1 rows,
      processMessage exampleOutside "bucket" workerDB emptyCache noWorkerFaults (FormatInt 7)
        = some (db1, rdb1) ∧
      db1.compressedImages = workerDB.compressedImages ++ rows ∧
      rows.length + 1 = (workerDB.imagesOf 7).length ∧
      (rows.map (fun r => (r.Url, r.ImageId))).Perm
        (((workerDB.imagesOf 7).filterMap
          (fun i => (processImage exampleOutside "bucket" i).sent)).map
          (fun c => (c.Url, c.ImageId))) ∧
      (∀ r ∈ rows, r.ProductId = 7) ∧
      rdb1.issued = emptyCache.issued ++ [RedisCmd.del (FormatInt 7)] :=
  ⟨⟨by decide, by decide, by decide⟩,
    C5_one_failure_persists_the_others_and_invalidates exampleOutside "bucket" workerDB
      emptyCache noWorkerFaults 7 (by decide) rfl rfl rfl rfl (by decide) (by decide)⟩

/-- C9: when every `CompressedImage` row references an `Image` row of the same product, this
still holds after the Worker has processed a message whose body is the decimal text of a
product identifier, whatever fails and in whatever order the tasks send. -/
theorem C9_worker_keeps_reference_integrity
    (out : Outside) (bucketName : String) (db : DB) (rdb : Redis) (f : WorkerFaults)
    (P : Int) (hP : isInt64 P) (hinv : refIntegrity db) :
    ∃ db1 rdb1,
      processMessage out bucketName db rdb f (FormatInt P) = some (db1, rdb1) ∧
      refIntegrity db1 := by
  have hparse := ParseInt_FormatInt P hP
  obtain ⟨uploaded, e, hu, hmem⟩ := CompressImages_mem out
    (GetProductImages db f.imagesQuery (FormatInt P)).1 bucketName f.order
  have himg : ∀ i ∈ (GetProductImages db f.imagesQuery (FormatInt P)).1,
      i ∈ db.images ∧ i.ProductId = P := by
    intro i hi
    unfold GetProductImages at hi
    by_cases hq : f.imagesQuery = true
    · simp [hq] at hi
    · simp only [hq, Bool.false_eq_true, if_false, hparse, DB.imagesOf, List.mem_filter] at hi
      exact ⟨hi.1, by simpa using hi.2⟩
  have hpm : processMessage out bucketName db rdb f (FormatInt P) =
      some ((StoreCompressedImages db rdb f (FormatInt P) uploaded).1,
        (StoreCompressedImages db rdb f (FormatInt P) uploaded).2.1) := by
    simp only [processMessage, hu]
  refine ⟨_, _, hpm, ?_⟩
  rcases StoreCompressedImages_cases db rdb f (FormatInt P) uploaded with ⟨heq, -⟩ | ⟨pid, hpid, heq⟩
  · rw [heq]
    exact hinv
  · rw [heq]
    have hpp : pid = P := by
      rw [hparse] at hpid
      exact (Option.some.inj hpid).symm
    subst hpp
    intro c hc
    simp only [storedDB, List.mem_append] at hc
    rcases hc with hc | hc
    · exact hinv c hc
    · obtain ⟨hprod, c0, hc0, hid, -⟩ := compressedRows_mem _ _ _ _ hc
      obtain ⟨i, hi, hsent⟩ := hmem c0 hc0
      obtain ⟨hidb, hip⟩ := himg i hi
      refine ⟨i, hidb, ?_, ?_⟩
      · rw [← hid, processImage_sent out bucketName i c0 hsent]
      · rw [hip, hprod]

/-- Witness of C9: the message of product 7 on `workerDB`, which has no compressed rows yet. -/
theorem C9_witness :
    (isInt64 7 ∧ refIntegrity workerDB) ∧
    ∃ db1 rdb1,
      processMessage exampleOutside "bucket" workerDB emptyCache noWorkerFaults (FormatInt 7)
        = some (db1, rdb1) ∧ refIntegrity db1 :=
  ⟨⟨by decide, by intro c hc; simp [workerDB] at hc⟩,
    C9_worker_keeps_reference_integrity exampleOutside "bucket" workerDB emptyCache
      noWorkerFaults 7 (by decide) (by intro c hc; simp [workerDB] at hc)⟩

/-- C10: when the message of a product is processed a first time, on a Store holding no
compressed row for the product's images, and then a second time with the same task outcomes,
both with succeeding query and transaction, the second run appends a further row per
succeeding image and touches no existing row: for each succeeding image the rows with its
`ImageId` and `Url` are at least one after the first run and twice as many after the
second. -/
theorem C10_second_run_doubles_the_rows
    (out : Outside) (bucketName : String) (db : DB) (rdb : Redis) (f1 f2 : WorkerFaults)
    (P : Int) (hP : isInt64 P)
    (hq1 : f1.imagesQuery = false) (hb1 : f1.begin = false) (hcr1 : f1.create = none)
    (hc1 : f1.commit = false) (ho1 : f1.order.Perm (List.range (db.imagesOf P).length))
    (hq2 : f2.imagesQuery = false) (hb2 : f2.begin = false) (hcr2 : f2.create = none)
    (hc2 : f2.commit = false) (ho2 : f2.order.Perm (List.range (db.imagesOf P).length))
    (hfresh : ∀ r ∈ db.compressedImages, ∀ i ∈ db.imagesOf P, r.ImageId ≠ i.Id) :
    ∃ db1 rdb1 db2 rdb2 rows1 rows2,
      processMessage out bucketName db rdb f1 (FormatInt P) = some (db1, rdb1) ∧
      processMessage out bucketName db1 rdb1 f2 (FormatInt P) = some (db2, rdb2) ∧
      db1.compressedImages = db.compressedImages ++ rows1 ∧
      db2.compressedImages = db1.compressedImages ++ rows2 ∧
      (rows2.map (fun r => (r.Url, r.ImageId, r.ProductId))).Perm
        (rows1.map (fun r => (r.Url, r.ImageId, r.ProductId))) ∧
      ∀ i ∈ db.imagesOf P, ∀ c, (processImage out bucketName i).sent = some c →
        0 < db1.compressedImages.countP (fun r => r.ImageId == i.Id && r.Url == c.Url) ∧
        db2.compressedImages.countP (fun r => r.ImageId == i.Id && r.Url == c.Url) =
          2 * db1.compressedImages.countP (fun r => r.ImageId == i.Id && r.Url == c.Url) := by
  obtain ⟨up1, e1, hu1, hp1⟩ := CompressImages_perm out (db.imagesOf P) bucketName f1.order ho1
  have himgs : (storedDB db P up1).imagesOf P = db.imagesOf P := rfl
  obtain ⟨up2, e2, hu2, hp2⟩ := CompressImages_perm out (db.imagesOf P) bucketName f2.order ho2
  have hrun1 := processMessage_ok out bucketName db rdb f1 P hP hq1 hb1 hcr1 hc1 up1 e1 hu1
  have hrun2 := processMessage_ok out bucketName (storedDB db P up1)
    (rdb.Del f1.cacheDel (FormatInt P)).1 f2 P hP hq2 hb2 hcr2 hc2 up2 e2 (by rw [himgs]; exact hu2)
  have h12 : up2.Perm up1 := hp2.trans hp1.symm
  have hrows : ∀ (cs : List Compressed) (seq : Int),
      (compressedRows P cs seq).map (fun r => (r.Url, r.ImageId, r.ProductId))
        = cs.map (fun c => (c.Url, c.ImageId, P)) := by
    intro cs
    induction cs with
    | nil => intro seq; rfl
    | cons c rest ih => intro seq; simp [compressedRows, ih]
  refine ⟨_, _, _, _, compressedRows P up1 db.compressedImageSeq,
    compressedRows P up2 (storedDB db P up1).compressedImageSeq, hrun1, hrun2, rfl, rfl, ?_, ?_⟩
  · rw [hrows, hrows]
    exact h12.map _
  · intro i hi c hc
    have hcid : c.ImageId = i.Id := processImage_sent out bucketName i c hc
    have hzero : db.compressedImages.countP (fun r => r.ImageId == i.Id && r.Url == c.Url)
        = 0 := by
      rw [List.countP_eq_zero]
      intro r hr
      have := hfresh r hr i hi
      simp [this]
    have hr1 := compressedRows_countP P up1 db.compressedImageSeq
      (fun id url => id == i.Id && url == c.Url)
    have hr2 := compressedRows_countP P up2 (storedDB db P up1).compressedImageSeq
      (fun id url => id == i.Id && url == c.Url)
    have hcnt : up2.countP (fun x => x.ImageId == i.Id && x.Url == c.Url)
        = up1.countP (fun x => x.ImageId == i.Id && x.Url == c.Url) := h12.countP_eq _
    have hpos : 0 < up1.countP (fun x => x.ImageId == i.Id && x.Url == c.Url) := by
      rw [List.countP_pos_iff]
      refine ⟨c, ?_, by simp [hcid]⟩
      rw [hp1.mem_iff, List.mem_filterMap]
      exact ⟨i, hi, hc⟩
    simp only [storedDB, List.countP_append] at hr1 hr2 ⊢
    rw [hzero, hr1, hr2, hcnt]
    exact ⟨by omega, by omega⟩

/-- Witness of C10: the message of product 7 processed twice on `workerDB`. -/
theorem C10_witness :
    (isInt64 7 ∧ noWorkerFaults.order.Perm (List.range (workerDB.imagesOf 7).length) ∧
      noWorkerFaultsAgain.order.Perm (List.range (workerDB.imagesOf 7).length) ∧
      ∀ r ∈ workerDB.compressedImages, ∀ i ∈ workerDB.imagesOf 7, r.ImageId ≠ i.Id) ∧
    ∃ db1 rdb1 db2 rdb2 rows1 rows2,
      processMessage exampleOutside "bucket" workerDB emptyCache noWorkerFaults (FormatInt 7)
        = some (db1, rdb1) ∧
      processMessage exampleOutside "bucket" db1 rdb1 noWorkerFaultsAgain (FormatInt 7)
        = some (db2, rdb2) ∧
      db1.compressedImages = workerDB.compressedImages ++ rows1 ∧
      db2.compressedImages = db1.compressedImages ++ rows2 ∧
      (rows2.map (fun r => (r.Url, r.ImageId, r.ProductId))).Perm
        (rows1.map (fun r => (r.Url, r.ImageId, r.ProductId))) ∧
      ∀ i ∈ workerDB.imagesOf 7, ∀ c,
        (processImage exampleOutside "bucket" i).sent = some c →
        0 < db1.compressedImages.countP (fun r => r.ImageId == i.Id && r.Url == c.Url) ∧
        db2.compressedImages.countP (fun r => r.ImageId == i.Id && r.Url == c.Url) =
          2 * db1.compressedImages.countP (fun r => r.ImageId == i.Id && r.Url == c.Url) :=
  ⟨⟨by decide, by decide, by decide, by decide⟩,
    C10_second_run_doubles_the_rows exampleOutside "bucket" workerDB emptyCache noWorkerFaults
      noWorkerFaultsAgain 7 (by decide) rfl rfl rfl rfl (by decide) rfl rfl rfl rfl (by decide)
      (by decide)⟩

/-! ## The queue message: decimal text and back -/

/-- C11: for every 64-bit product identifier, the body `NewProduct` publishes for a product
with that identifier is its decimal text, `ParseInt` on that body succeeds with exactly that
identifier, and so `StoreCompressedImages` on that body stores its rows for that identifier. -/
theorem C11_message_body_parses_back_to_the_identifier (i : Int) (hi : isInt64 i) :
    ParseInt (FormatInt i) = some i ∧
    (∀ (db : DB) (queue : Queue) (f : CreateFaults) (payload : ProductPayload) (u : User),
      payload.Validate = [] → db.FirstUser payload.UserId = some u →
      db.productSeq + 1 = i → (creation db f payload).2.2 = none → f.publish = false →
      (createdProduct db payload).Id = i ∧
      (NewProduct db queue f (some payload)).queue = queue ++ [FormatInt i]) ∧
    (∀ (db : DB) (rdb : Redis) (f : WorkerFaults) (compressed : List Compressed),
      f.begin = false → f.create = none → f.commit = false →
      (StoreCompressedImages db rdb f (FormatInt i) compressed).1 = storedDB db i compressed ∧
      ∀ r ∈ compressedRows i compressed db.compressedImageSeq, r.ProductId = i) := by
  have hparse := ParseInt_FormatInt i hi
  refine ⟨hparse, ?_, ?_⟩
  · intro db queue f payload u hv hu hseq hcommit hpub
    have hid : (createdProduct db payload).Id = i := by
      rw [← hseq]
      exact FindWithImages_Id _ _
    refine ⟨hid, ?_⟩
    rw [NewProduct_eq db queue f payload u hv hu, creation_none db f payload hcommit]
    simp only [Publish, hpub, Bool.false_eq_true, if_false, hid]
  · intro db rdb f compressed hb hcr hc
    rw [StoreCompressedImages_ok db rdb f (FormatInt i) compressed i hparse hb hcr hc]
    exact ⟨rfl, fun r hr => (compressedRows_mem _ _ _ _ hr).1⟩

/-- Witness of C11: the identifier 1103. -/
theorem C11_witness : isInt64 1103 ∧ ParseInt (FormatInt 1103) = some 1103 :=
  ⟨by decide, (C11_message_body_parses_back_to_the_identifier 1103 (by decide)).1⟩

/-! ## The object key -/

/-- The pieces of `strings.Split(s, "/")`: the last one has no slash, and `s` is the earlier
pieces, each followed by a slash, followed by the last one. -/
theorem splitSlash_spec (cs : List Char) :
    ∃ init last, splitSlash cs = init ++ [last] ∧ '/' ∉ last ∧
      cs = (init.map (fun seg => seg ++ ['/'])).flatten ++ last := by
  induction cs with
  | nil => exact ⟨[], [], rfl, by simp, rfl⟩
  | cons c rest ih =>
    obtain ⟨init, last, hs, hl, hcs⟩ := ih
    by_cases hc : c = '/'
    · refine ⟨[] :: init, last, ?_, hl, ?_⟩
      · simp [splitSlash, hc, hs]
      · simp only [List.map_cons, List.flatten_cons, List.nil_append, List.singleton_append,
          List.cons_append]
        rw [hc, ← hcs]
    · cases init with
      | nil =>
        refine ⟨[], c :: last, ?_, ?_, ?_⟩
        · simp only [List.nil_append] at hs
          simp [splitSlash, hc, hs]
        · simp only [List.mem_cons, not_or]
          exact ⟨fun h => hc h.symm, hl⟩
        · simp only [List.map_nil, List.flatten_nil, List.nil_append] at hcs ⊢
          rw [hcs]
      | cons seg init1 =>
        refine ⟨(c :: seg) :: init1, last, ?_, hl, ?_⟩
        · simp only [List.cons_append] at hs
          simp [splitSlash, hc, hs]
        · simp only [List.map_cons, List.flatten_cons, List.cons_append, List.append_assoc] at hcs ⊢
          rw [hcs]

/-- The file name `getFileNameFromURL` returns: it is always there, it has no slash, and the
URL is that name after nothing or after a prefix ending in a slash. -/
theorem getFileNameFromURL_spec (url : String) :
    ∃ name pre, getFileNameFromURL url = some name ∧ url.data = pre ++ name.data ∧
      '/' ∉ name.data ∧ (pre = [] ∨ ∃ p, pre = p ++ ['/']) := by
  obtain ⟨init, last, hs, hl, hcs⟩ := splitSlash_spec url.data
  refine ⟨String.mk last, (init.map (fun seg => seg ++ ['/'])).flatten, ?_, hcs, hl, ?_⟩
  · show Option.map String.mk ((splitSlash url.data).get? ((splitSlash url.data).length - 1)) = _
    rw [hs]
    simp
  · rcases List.eq_nil_or_concat init with h | ⟨i0, x, h⟩
    · left; simp [h]
    · right
      refine ⟨(i0.map (fun seg => seg ++ ['/'])).flatten ++ x, ?_⟩
      simp [h]

/-- The closure `processImage` uploads under `objectKey` and records the URL made from it. -/
theorem processImage_uses_objectKey (out : Outside) (bucketName : String) (image : Image) :
    processImage out bucketName image =
      (match out.httpGet image.Url with
       | Except.error err => TaskResult.error err
       | Except.ok body =>
         match compressJPEG out body 75 with
         | Except.error err => TaskResult.error err
         | Except.ok compressedData =>
           match objectKey image with
           | none => TaskResult.panic
           | some key =>
             match out.putObject bucketName key compressedData "image/jpeg" with
             | some err => TaskResult.error err
             | none =>
               TaskResult.result
                 { Url := "https://" ++ bucketName ++ ".s3.amazonaws.com/" ++ key,
                   ImageId := image.Id }) := by
  obtain ⟨name, hn⟩ := getFileNameFromURL_isSome image.Url
  simp only [processImage, objectKey, hn, Option.map_some']

theorem string_eq_of_data (s t : String) (h : s.data = t.data) : s = t := by
  cases s; cases t; simp only at h; rw [h]

/-- C12: for every image, bucket and outside world, the file name is always found (no index
out of range): it is the part of the source URL after its last slash, the whole URL when
there is none. The task uploads under `compressed_images/`, the decimal identifier, `_` and
that file name, with content type `image/jpeg`, and the URL it records is
`https://{bucket}.s3.amazonaws.com/` followed by the same key. -/
theorem C12_object_key_and_public_url (out : Outside) (bucketName : String) (image : Image) :
    ∃ name pre,
      getFileNameFromURL image.Url = some name ∧
      image.Url.data = pre ++ name.data ∧ '/' ∉ name.data ∧
      (pre = [] ∨ ∃ p, pre = p ++ ['/']) ∧
      ('/' ∉ image.Url.data → name = image.Url) ∧
      objectKey image = some ("compressed_images/" ++ FormatInt image.Id ++ "_" ++ name) ∧
      processImage out bucketName image =
        (match out.httpGet image.Url with
         | Except.error err => TaskResult.error err
         | Except.ok body =>
           match compressJPEG out body 75 with
           | Except.error err => TaskResult.error err
           | Except.ok compressedData =>
             match out.putObject bucketName
                 ("compressed_images/" ++ FormatInt image.Id ++ "_" ++ name)
                 compressedData "image/jpeg" with
             | some err => TaskResult.error err
             | none =>
               TaskResult.result
                 { Url := "https://" ++ bucketName ++ ".s3.amazonaws.com/" ++
                     ("compressed_images/" ++ FormatInt image.Id ++ "_" ++ name),
                   ImageId := image.Id }) := by
  obtain ⟨name, pre, hn, hurl, hns, hpre⟩ := getFileNameFromURL_spec image.Url
  refine ⟨name, pre, hn, hurl, hns, hpre, ?_, ?_, ?_⟩
  · intro hno
    rcases hpre with h | ⟨p, h⟩
    · rw [h, List.nil_append] at hurl
      exact string_eq_of_data _ _ hurl.symm
    · exfalso
      apply hno
      rw [hurl, h]
      simp
  · simp [objectKey, hn]
  · simp only [processImage, hn]

/-- The first image of `workerDB` uploads under `compressed_images/1_a.png`. -/
theorem objectKey_example :
    objectKey ⟨1, "http://x/a.png", 7⟩ = some "compressed_images/1_a.png" ∧
    objectKey emptyUrlImage = some "compressed_images/5_" := by
  decide

/-! ## The object key separates the identifiers -/

theorem digitChar_ne_underscore (d : Nat) : digitChar d ≠ '_' := by
  unfold digitChar
  split <;> decide

theorem formatNatAux_chars (fuel n : Nat) (acc : List Char) (c : Char)
    (h : c ∈ formatNatAux fuel n acc) : c ∈ acc ∨ ∃ d, c = digitChar d := by
  induction fuel generalizing n acc with
  | zero => exact Or.inl (by simpa [formatNatAux] using h)
  | succ k ih =>
    simp only [formatNatAux] at h
    split at h
    · rcases List.mem_cons.1 h with h1 | h1
      · exact Or.inr ⟨n, h1⟩
      · exact Or.inl h1
    · rcases ih _ _ h with h1 | h1
      · rcases List.mem_cons.1 h1 with h2 | h2
        · exact Or.inr ⟨n % 10, h2⟩
        · exact Or.inl h2
      · exact Or.inr h1

theorem underscore_not_in_FormatInt (i : Int) : '_' ∉ (FormatInt i).data := by
  have hnat : ∀ n, '_' ∉ formatNat n := by
    intro n h
    rcases formatNatAux_chars _ _ _ _ h with h1 | ⟨d, h1⟩
    · simp at h1
    · exact digitChar_ne_underscore d h1.symm
  unfold FormatInt
  split
  · simp only [List.mem_cons, not_or]
    exact ⟨by decide, hnat _⟩
  · exact hnat _

theorem append_sep_cancel (s : Char) (a b x y : List Char) (ha : s ∉ a) (hb : s ∉ b)
    (h : a ++ s :: x = b ++ s :: y) : a = b := by
  induction a generalizing b with
  | nil =>
    cases b with
    | nil => rfl
    | cons c b1 =>
      simp only [List.nil_append, List.cons_append, List.cons.injEq] at h
      exact absurd (by rw [h.1]; exact List.mem_cons_self _ _) hb
  | cons c a1 ih =>
    cases b with
    | nil =>
      simp only [List.nil_append, List.cons_append, List.cons.injEq] at h
      exact absurd (by rw [← h.1]; exact List.mem_cons_self _ _) ha
    | cons e b1 =>
      simp only [List.cons_append, List.cons.injEq] at h
      rw [h.1, ih b1 (fun hm => ha (List.mem_cons_of_mem _ hm))
        (fun hm => hb (List.mem_cons_of_mem _ hm)) h.2]

/-- C15: two images with different 64-bit identifiers get different object keys, whatever
their source URLs are, so the task of one never uploads under the key of the other. -/
theorem C15_object_key_separates_identifiers (image1 image2 : Image)
    (h1 : isInt64 image1.Id) (h2 : isInt64 image2.Id) (hne : image1.Id ≠ image2.Id) :
    ∃ key1 key2, objectKey image1 = some key1 ∧ objectKey image2 = some key2 ∧
      key1 ≠ key2 := by
  obtain ⟨name1, hn1⟩ := getFileNameFromURL_isSome image1.Url
  obtain ⟨name2, hn2⟩ := getFileNameFromURL_isSome image2.Url
  refine ⟨"compressed_images/" ++ FormatInt image1.Id ++ "_" ++ name1,
    "compressed_images/" ++ FormatInt image2.Id ++ "_" ++ name2,
    by simp [objectKey, hn1], by simp [objectKey, hn2], ?_⟩
  intro hkey
  have hdata := congrArg String.data hkey
  simp only [String.data_append, List.append_assoc, List.append_cancel_left_eq] at hdata
  have hfmt : (FormatInt image1.Id).data = (FormatInt image2.Id).data :=
    append_sep_cancel '_' _ _ name1.data name2.data (underscore_not_in_FormatInt _)
      (underscore_not_in_FormatInt _) hdata
  have hstr : FormatInt image1.Id = FormatInt image2.Id := string_eq_of_data _ _ hfmt
  have hp := ParseInt_FormatInt image1.Id h1
  rw [hstr, ParseInt_FormatInt image2.Id h2] at hp
  exact hne (Option.some.inj hp).symm

/-- Witness of C15: image 1 with file name `2_a.png` and image 12 with file name `a.png`. -/
theorem C15_witness :
    (isInt64 imageOne.Id ∧ isInt64 imageTwelve.Id ∧ imageOne.Id ≠ imageTwelve.Id) ∧
    ∃ key1 key2, objectKey imageOne = some key1 ∧ objectKey imageTwelve = some key2 ∧
      key1 ≠ key2 :=
  ⟨⟨by decide, by decide, by decide⟩,
    C15_object_key_separates_identifiers imageOne imageTwelve (by decide) (by decide)
      (by decide)⟩

/-! ## Fan-in -/

/-- The receive loop on sends without a panic: every result is appended, and the error kept
is the one already held or else the first one received. -/
theorem fanIn_spec (l : List TaskResult) (h : ∀ t ∈ l, t ≠ TaskResult.panic)
    (uploaded : List Compressed) (finalErr : Option String) :
    fanIn l (uploaded, finalErr) =
      some (uploaded ++ l.filterMap TaskResult.sent,
        match finalErr with
        | some e => some e
        | none => (l.filterMap TaskResult.failure).head?) := by
  induction l generalizing uploaded finalErr with
  | nil => cases finalErr <;> simp [fanIn]
  | cons t rest ih =>
    have hrest : ∀ t ∈ rest, t ≠ TaskResult.panic := fun t ht => h t (List.mem_cons_of_mem _ ht)
    cases t with
    | result c =>
      rw [fanIn, ih hrest]
      cases finalErr <;> simp [TaskResult.sent, TaskResult.failure]
    | error err =>
      rw [fanIn, ih hrest]
      cases finalErr <;> simp [TaskResult.sent, TaskResult.failure]
    | panic => exact absurd rfl (h _ (List.mem_cons_self _ _))

/-- C14: for every list of images, every outcome of the tasks and every order in which they
send, `CompressImages` returns one pair per succeeding image and no other (a rearrangement of
the succeeding images' pairs, each with its image's identifier), so a failure takes no
sibling's pair away; the error is nil exactly when no task failed, and otherwise it is the
error of the first failing task in the order of the sends. -/
theorem C14_CompressImages_collects_every_success_and_first_error
    (out : Outside) (images : List Image) (bucketName : String) (order : List Nat)
    (horder : order.Perm (List.range images.length)) :
    ∃ uploaded err,
      CompressImages out images bucketName order = some (uploaded, err) ∧
      uploaded.Perm (images.filterMap (fun i => (processImage out bucketName i).sent)) ∧
      (∀ i ∈ images, ∀ c, (processImage out bucketName i).sent = some c →
        c ∈ uploaded ∧ c.ImageId = i.Id) ∧
      (∀ c ∈ uploaded, ∃ i ∈ images, (processImage out bucketName i).sent = some c) ∧
      (err = none ↔ ∀ i ∈ images, (processImage out bucketName i).failure = none) ∧
      err = ((order.filterMap (fun k => images.get? k)).filterMap
        (fun i => (processImage out bucketName i).failure)).head? := by
  have harr := arrival_perm images order horder
  have hnp : ∀ t ∈ (order.filterMap (fun k => images.get? k)).map (processImage out bucketName),
      t ≠ TaskResult.panic := by
    intro t ht
    obtain ⟨i, -, rfl⟩ := List.mem_map.1 ht
    exact processImage_ne_panic out bucketName i
  have hrun := fanIn_spec _ hnp [] none
  simp only [List.nil_append, List.filterMap_map] at hrun
  have hperm : ((order.filterMap (fun k => images.get? k)).filterMap
      (TaskResult.sent ∘ processImage out bucketName)).Perm
      (images.filterMap (fun i => (processImage out bucketName i).sent)) :=
    List.Perm.filterMap _ harr
  refine ⟨_, _, hrun, hperm, ?_, ?_, ?_, rfl⟩
  · intro i hi c hc
    refine ⟨?_, processImage_sent out bucketName i c hc⟩
    rw [hperm.mem_iff, List.mem_filterMap]
    exact ⟨i, hi, hc⟩
  · intro c hc
    rw [hperm.mem_iff, List.mem_filterMap] at hc
    exact hc
  · rw [List.head?_eq_none_iff, List.filterMap_eq_nil_iff]
    constructor
    · intro h i hi
      exact h i (harr.mem_iff.2 hi)
    · intro h i hi
      exact h i (harr.mem_iff.1 hi)

/-- Witness of C14: the two images of product 7, the second of which fails and sends first. -/
theorem C14_witness :
    noWorkerFaults.order.Perm (List.range (workerDB.imagesOf 7).length) ∧
    ∃ uploaded err,
      CompressImages exampleOutside (workerDB.imagesOf 7) "bucket" noWorkerFaults.order
        = some (uploaded, err) ∧
      uploaded.Perm ((workerDB.imagesOf 7).filterMap
        (fun i => (processImage exampleOutside "bucket" i).sent)) ∧
      (∀ i ∈ workerDB.imagesOf 7, ∀ c,
        (processImage exampleOutside "bucket" i).sent = some c →
        c ∈ uploaded ∧ c.ImageId = i.Id) ∧
      (∀ c ∈ uploaded, ∃ i ∈ workerDB.imagesOf 7,
        (processImage exampleOutside "bucket" i).sent = some c) ∧
      (err = none ↔ ∀ i ∈ workerDB.imagesOf 7,
        (processImage exampleOutside "bucket" i).failure = none) ∧
      err = ((noWorkerFaults.order.filterMap (fun k => (workerDB.imagesOf 7).get? k)).filterMap
        (fun i => (processImage exampleOutside "bucket" i).failure)).head? :=
  ⟨by decide,
    C14_CompressImages_collects_every_success_and_first_error exampleOutside
      (workerDB.imagesOf 7) "bucket" noWorkerFaults.order (by decide)⟩

/-- The run of the witness of C14, evaluated: one pair, and the error of the failing fetch. -/
theorem CompressImages_example :
    CompressImages exampleOutside (workerDB.imagesOf 7) "bucket" [1, 0] =
      some ([⟨"https://bucket.s3.amazonaws.com/compressed_images/1_a.png", 1⟩], some "404") ∧
    CompressImages exampleOutside [] "bucket" [] = some ([], none) := by
  decide

/-! ## The cached response -/

theorem lookup_Set_self (rdb : Redis) (key : String) (v : CacheValue) :
    (rdb.Set false key v).1.lookup key = some v := by
  simp [Redis.Set, Redis.lookup, List.find?_append, find?_filter_self]

/-- On a request that parses and whose cache lookup gives no decodable value, `GetProduct`
is `getProductFromStore` after the `GET`. -/
theorem GetProduct_miss_eq (db : DB) (rdb : Redis) (f : ReadFaults) (s : String) (P : Int)
    (hid : ParseInt s = some P)
    (hmiss : f.cacheGet = true ∨ rdb.lookup s = none ∨
      ∃ v, rdb.lookup s = some v ∧ v.Unmarshal = none) :
    GetProduct db rdb f s =
      getProductFromStore db { rdb with issued := rdb.issued ++ [RedisCmd.get s] } f s P
        ResponseWriter.new := by
  have hne : s ≠ "" := by
    intro h
    rw [h, ParseInt_empty] at hid
    exact absurd hid (by simp)
  unfold GetProduct
  simp only [hne, if_false, hid, Redis.Get]
  by_cases hg : f.cacheGet = true
  · simp only [hg, if_true]
  · simp only [hg, Bool.false_eq_true, if_false]
    rcases hmiss with hm | hm | ⟨v, hm, hv⟩
    · exact absurd hm hg
    · simp only [hm]
    · simp only [hm, hv]

/-- The JSON of a product does not depend on its fields tagged `json:"-"`. -/
theorem Marshal_visible (p : Product) : p.visible.Marshal = p.Marshal := by
  have hi : ∀ xs : List Image, (xs.map Image.visible).map Image.Marshal = xs.map Image.Marshal := by
    intro xs
    rw [List.map_map]
    rfl
  have hc : ∀ xs : List CompressedImage,
      (xs.map CompressedImage.visible).map CompressedImage.Marshal
        = xs.map CompressedImage.Marshal := by
    intro xs
    rw [List.map_map]
    rfl
  have h1 : Json.ofSlice Image.Marshal (p.Images.map (List.map Image.visible))
      = Json.ofSlice Image.Marshal p.Images := by
    cases p.Images with
    | none => rfl
    | some xs => simp [Json.ofSlice, hi]
  have h2 : Json.ofSlice CompressedImage.Marshal
      (p.CompressedImages.map (List.map CompressedImage.visible))
      = Json.ofSlice CompressedImage.Marshal p.CompressedImages := by
    cases p.CompressedImages with
    | none => rfl
    | some xs => simp [Json.ofSlice, hc]
  simp only [Product.Marshal, Product.visible, h1, h2]

/-- Unmarshalling the JSON of a product gives its JSON-visible part. -/
theorem Unmarshal_Marshal_product (p : Product) (h : p.int64Fields) :
    Product.Unmarshal p.Marshal = some p.visible := by
  obtain ⟨h1, h2, h3, h4⟩ := h
  simp +decide [Product.Unmarshal, Product.Marshal, Product.decodeMember,
    decodeInt64_ofInt _ _ h1, decodeInt64_ofInt _ _ h2, decodeString, decodeFloat32_toNumber,
    Product.zero, decodeSlice_images _ h3, decodeSlice_compressed _ h4, Product.visible]

/-- C16: when a read misses the cache, loads `p` from the Store and writes the cache entry,
a later read that hits this entry is answered with the same status and the same JSON body as
the read that wrote it, whatever the Store holds by then: marshalling what was unmarshalled
from the JSON of `p` gives the JSON of `p` again. -/
theorem C16_cache_hit_serves_the_body_of_the_miss
    (db db2 : DB) (rdb : Redis) (f f2 : ReadFaults) (s : String) (P : Int) (p : Product)
    (hid : ParseInt s = some P)
    (hmiss : f.cacheGet = true ∨ rdb.lookup s = none ∨
      ∃ v, rdb.lookup s = some v ∧ v.Unmarshal = none)
    (hdb : f.dbQuery = false) (hload : db.FirstProduct P = some p)
    (hset : f.cacheSet = false) (hint : p.int64Fields) (hget : f2.cacheGet = false) :
    let miss := GetProduct db rdb f s
    let hit := GetProduct db2 miss.1 f2 s
    miss.1.lookup s = some (CacheValue.doc p.Marshal) ∧
    miss.2 = WriteJson ResponseWriter.new 200 p.Marshal ∧
    hit.2 = miss.2 ∧
    hit.1.entries = miss.1.entries ∧
    (∀ q, Product.Unmarshal p.Marshal = some q → q.Marshal = p.Marshal) := by
  intro miss hit
  have hne : s ≠ "" := by
    intro h
    rw [h, ParseInt_empty] at hid
    exact absurd hid (by simp)
  have hm : miss = ((({ rdb with issued := rdb.issued ++ [RedisCmd.get s] } : Redis).Set false s
      (CacheValue.doc p.Marshal)).1, WriteJson ResponseWriter.new 200 p.Marshal) := by
    show GetProduct db rdb f s = _
    rw [GetProduct_miss_eq db rdb f s P hid hmiss]
    simp only [getProductFromStore, hdb, Bool.false_eq_true, if_false, hload, hset]
  have hlook : miss.1.lookup s = some (CacheValue.doc p.Marshal) := by
    rw [hm]
    exact lookup_Set_self _ _ _
  have hun := Unmarshal_Marshal_product p hint
  have hh : hit = ({ miss.1 with issued := miss.1.issued ++ [RedisCmd.get s] },
      WriteJson ResponseWriter.new 200 p.visible.Marshal) := by
    show GetProduct db2 miss.1 f2 s = _
    unfold GetProduct
    simp only [hne, if_false, hid, Redis.Get, hget, Bool.false_eq_true, hlook,
      CacheValue.Unmarshal, hun]
  refine ⟨hlook, by rw [hm], ?_, by rw [hh], ?_⟩
  · rw [hh, hm, Marshal_visible]
  · intro q hq
    rw [hun] at hq
    rw [← Option.some.inj hq, Marshal_visible]

/-- Witness of C16: product 7 of `workerDB` read twice through the path `7`. -/
theorem C16_witness :
    (ParseInt "7" = some 7 ∧ emptyCache.lookup "7" = none ∧
      workerDB.FirstProduct 7 = some lampLoaded ∧ lampLoaded.int64Fields) ∧
    (GetProduct workerDB (GetProduct workerDB emptyCache noReadFaults "7").1 noReadFaults "7").2
      = (GetProduct workerDB emptyCache noReadFaults "7").2 :=
  ⟨⟨by decide, rfl, by decide, by decide⟩,
    (C16_cache_hit_serves_the_body_of_the_miss workerDB workerDB emptyCache noReadFaults
      noReadFaults "7" 7 lampLoaded (by decide) (Or.inr (Or.inl rfl)) rfl (by decide) rfl
      (by decide) rfl).2.2.1⟩

/-! ## Two concurrent reads -/

/-- The first step of a read whose id parses: after the `GET` it has missed, or it is answered
from the cache; `GetProduct` continues the same way. -/
theorem readStep_start (db : DB) (f : ReadFaults) (s : String) (rdb : Redis) (P : Int)
    (hp : ParseInt s = some P) :
    (readStep db f s rdb Reading.start =
        ({ rdb with issued := rdb.issued ++ [RedisCmd.get s] }, Reading.missed P) ∧
      GetProduct db rdb f s =
        getProductFromStore db { rdb with issued := rdb.issued ++ [RedisCmd.get s] } f s P
          ResponseWriter.new) ∨
    ∃ p : Product, readStep db f s rdb Reading.start =
        ({ rdb with issued := rdb.issued ++ [RedisCmd.get s] },
          Reading.finished (WriteJson ResponseWriter.new 200 p.Marshal) Served.fromCache) ∧
      GetProduct db rdb f s =
        ({ rdb with issued := rdb.issued ++ [RedisCmd.get s] },
          WriteJson ResponseWriter.new 200 p.Marshal) := by
  have hs : s ≠ "" := by
    intro h
    rw [h, ParseInt_empty] at hp
    exact absurd hp (by simp)
  unfold GetProduct
  simp only [readStep, hs, if_false, hp, Redis.Get]
  by_cases hg : f.cacheGet = true
  · simp only [hg, if_true]
    (left; constructor <;> trivial)
  · simp only [hg, Bool.false_eq_true, if_false]
    cases hl : rdb.lookup s with
    | none => (left; constructor <;> trivial)
    | some v =>
      simp only
      cases hv : v.Unmarshal with
      | none => (left; constructor <;> trivial)
      | some p => (right; refine ⟨p, ?_, ?_⟩ <;> trivial)

/-- The second and third step of a read that has missed are `getProductFromStore`. -/
theorem readStep_missed (db : DB) (f : ReadFaults) (s : String) (r : Redis) (P : Int) :
    ∃ served,
      readStep db f s (readStep db f s r (Reading.missed P)).1
        (readStep db f s r (Reading.missed P)).2 =
      ((getProductFromStore db r f s P ResponseWriter.new).1,
        Reading.finished (getProductFromStore db r f s P ResponseWriter.new).2 served) := by
  unfold getProductFromStore
  by_cases hq : f.dbQuery = true
  · have h1 : readStep db f s r (Reading.missed P) =
        (r, Reading.finished
          (WriteError ResponseWriter.new 500 (Message.text "Error fetching product"))
          Served.storeError) := by
      simp only [readStep, hq, if_true]
    rw [h1]
    simp only [hq, if_true]
    exact ⟨_, rfl⟩
  · cases hf : db.FirstProduct P with
    | none =>
      have h1 : readStep db f s r (Reading.missed P) =
          (r, Reading.finished
            (WriteError ResponseWriter.new 404 (Message.text "Product not found"))
            Served.notFound) := by
        simp only [readStep, hq, Bool.false_eq_true, if_false, hf]
      rw [h1]
      simp only [hq, Bool.false_eq_true, if_false]
      exact ⟨_, rfl⟩
    | some p =>
      have h1 : readStep db f s r (Reading.missed P) = (r, Reading.loaded p) := by
        simp only [readStep, hq, Bool.false_eq_true, if_false, hf]
      rw [h1]
      simp only [hq, Bool.false_eq_true, if_false]
      exact ⟨_, rfl⟩

/-- The steps of `readStep`, run one after the other on an unchanging Store, are `GetProduct`. -/
theorem readAlone_eq_GetProduct (db : DB) (f : ReadFaults) (s : String) (rdb : Redis) :
    ∃ served, readAlone db f s rdb =
      ((GetProduct db rdb f s).1, Reading.finished (GetProduct db rdb f s).2 served) := by
  unfold readAlone
  by_cases hs : s = ""
  · have h1 : readStep db f s rdb Reading.start =
        (rdb, Reading.finished
          (WriteError ResponseWriter.new 400 (Message.text "Missing product id"))
          Served.rejected) := by
      simp only [readStep, hs, if_true]
    have h2 : GetProduct db rdb f s =
        (rdb, WriteError ResponseWriter.new 400 (Message.text "Missing product id")) := by
      simp only [GetProduct, hs, if_true]
    simp only [h1, h2]
    exact ⟨_, rfl⟩
  · cases hp : ParseInt s with
    | none =>
      have h1 : readStep db f s rdb Reading.start =
          (rdb, Reading.finished
            (WriteError ResponseWriter.new 400 (Message.text "Invalid product id"))
            Served.rejected) := by
        simp only [readStep, hs, if_false, hp]
      have h2 : GetProduct db rdb f s =
          (rdb, WriteError ResponseWriter.new 400 (Message.text "Invalid product id")) := by
        simp only [GetProduct, hs, if_false, hp]
      simp only [h1, h2]
      exact ⟨_, rfl⟩
    | some P =>
      rcases readStep_start db f s rdb P hp with ⟨h1, h2⟩ | ⟨p, h1, h2⟩
      · simp only [h1, h2]
        exact readStep_missed db f s _ P
      · simp only [h1, h2]
        exact ⟨_, rfl⟩

/-- The run of the witness of C13, evaluated: the cache ends with the snapshot of `A`, which
wrote last. -/
theorem raceSchedule_final :
    (interleave noReadFaults noReadFaults "7" "7" raceSchedule
      (emptyCache, Reading.start, Reading.start)).1.lookup "7"
      = some (CacheValue.doc lampLoaded.Marshal) := rfl

end ProductManagement
